import Mathlib

/-!
Verification of the sign-annotator annotation store and export services.

The data model is embedded from `src/types/annotation.ts`; the store
operations from the annotation store (`useAnnotationStore`): `placeMarker`,
`confirmMarker`, `cancelPendingMarker`, `removeMarker`, `addSpan`,
`mergeSpans`, `clearOverlappingSpans`, and the zundo temporal options.
Marker times are in integer milliseconds (the data model declares
`time (milliseconds, integer, >= 0)`), so JavaScript number arithmetic on
them is embedded as exact `Int` arithmetic.  `generateId` produces a fresh
unique id from `crypto.randomUUID()`; it is embedded by passing the fresh
id as an explicit argument.  The ELAN display fields of the store
(`elanTiers`, `elanSpans`, `showElanAnnotations`) are never read or written
by any of the embedded operations and are omitted from the state record.
-/

namespace SignAnnotator

/-- From `src/types/annotation.ts`: a point-in-time annotation. -/
structure Marker where
  id : String
  time : Int
  typeId : String
  tierId : String
  videoId : String
  confirmed : Bool
  value : Option String := none
  deriving Repr, DecidableEq

/-- From `src/types/annotation.ts`: a labeled interval anchored to two markers. -/
structure AnnotationSpan where
  id : String
  startMarkerId : String
  endMarkerId : String
  tierId : String
  videoId : String
  gloss : String
  deriving Repr, DecidableEq

/-- From `src/types/annotation.ts`: an annotation track. -/
structure Tier where
  id : String
  name : String
  markerTypes : List String := []
  visible : Bool := true
  locked : Bool := false
  color : String := ""
  deriving Repr, DecidableEq

/-- From `src/types/annotation.ts`: a marker type definition. -/
structure MarkerType where
  id : String
  key : String
  name : String
  color : String := ""
  category : String := ""
  description : Option String := none
  deriving Repr, DecidableEq

/-- The annotation store state (the fields of `AnnotationState` that the
embedded operations read or write). -/
structure AnnotationState where
  markers : List Marker := []
  spans : List AnnotationSpan := []
  selectedMarkerId : Option String := none
  pendingMarkerId : Option String := none
  selectedSpanId : Option String := none
  editingSpanId : Option String := none
  deriving Repr, DecidableEq

/-- The store's initial state. -/
def initialState : AnnotationState := {}

/-- `state.markers.find((m) => m.id === id)`. -/
def findMarker (markers : List Marker) (id : String) : Option Marker :=
  markers.find? (fun m => m.id == id)

/-- `state.spans.find((sp) => sp.id === id)`. -/
def findSpan (spans : List AnnotationSpan) (id : String) : Option AnnotationSpan :=
  spans.find? (fun sp => sp.id == id)

/-- `placeMarker(time, tierId, videoId)`: appends an unconfirmed marker with
empty `typeId`, selects it and marks it pending.  The generated id is the
explicit `id` argument. -/
def placeMarker (id : String) (time : Int) (tierId videoId : String)
    (s : AnnotationState) : AnnotationState :=
  { s with
    markers := s.markers ++
      [{ id := id, time := time, typeId := "", tierId := tierId,
         videoId := videoId, confirmed := false }],
    selectedMarkerId := some id,
    pendingMarkerId := some id }

/-- `confirmMarker`'s span search predicate: the span lies on the marker's
tier+video, its anchors exist, and the marker's time is strictly inside its
effective interval. -/
def markerInsideSpan (s : AnnotationState) (marker : Marker)
    (span : AnnotationSpan) : Bool :=
  span.tierId == marker.tierId && span.videoId == marker.videoId &&
  (match findMarker s.markers span.startMarkerId,
         findMarker s.markers span.endMarkerId with
   | some startM, some endM =>
     decide (min startM.time endM.time < marker.time) &&
     decide (marker.time < max startM.time endM.time)
   | _, _ => false)

/-- `confirmMarker(markerId, typeId)`: sets the type and `confirmed`, clears
the pending reference when it pointed at the marker, and snaps the end
marker of the first span (in list order) whose interval strictly contains
the marker's time on the same tier+video. -/
def confirmMarker (markerId typeId : String) (s : AnnotationState) :
    AnnotationState :=
  match findMarker s.markers markerId with
  | none => s
  | some marker =>
    let snapEndMarkerId : Option String :=
      (s.spans.find? (markerInsideSpan s marker)).map
        (fun span => span.endMarkerId)
    { s with
      markers := s.markers.map (fun m =>
        if m.id == markerId then { m with typeId := typeId, confirmed := true }
        else
          match snapEndMarkerId with
          | some sid => if m.id == sid then { m with time := marker.time } else m
          | none => m),
      pendingMarkerId :=
        if s.pendingMarkerId == some markerId then none else s.pendingMarkerId }

/-- `cancelPendingMarker()`: deletes the pending marker; no-op if none. -/
def cancelPendingMarker (s : AnnotationState) : AnnotationState :=
  match s.pendingMarkerId with
  | none => s
  | some pid =>
    { s with
      markers := s.markers.filter (fun m => m.id != pid),
      pendingMarkerId := none,
      selectedMarkerId :=
        if s.selectedMarkerId == some pid then none else s.selectedMarkerId }

/-- `removeMarker(id)`: deletes the marker, clears dangling selection and
pending references, and deletes every span anchored on it. -/
def removeMarker (id : String) (s : AnnotationState) : AnnotationState :=
  { s with
    markers := s.markers.filter (fun m => m.id != id),
    selectedMarkerId :=
      if s.selectedMarkerId == some id then none else s.selectedMarkerId,
    pendingMarkerId :=
      if s.pendingMarkerId == some id then none else s.pendingMarkerId,
    spans := s.spans.filter (fun sp =>
      sp.startMarkerId != id && sp.endMarkerId != id) }

/-- The argument of `addSpan`: a span without its id
(`Omit<AnnotationSpan, 'id'>`). -/
structure SpanInput where
  startMarkerId : String
  endMarkerId : String
  tierId : String
  videoId : String
  gloss : String
  deriving Repr, DecidableEq

/-- `addSpan`'s overlap check: the proposed effective interval
`[newStartMs, newEndMs)` intersects some existing span with existing
anchors on the same tier+video. -/
def addSpanOverlapping (s : AnnotationState) (span : SpanInput)
    (newStartMs newEndMs : Int) : Bool :=
  s.spans.any (fun existing =>
    if existing.tierId != span.tierId || existing.videoId != span.videoId then
      false
    else
      match findMarker s.markers existing.startMarkerId,
            findMarker s.markers existing.endMarkerId with
      | some existStart, some existEnd =>
        decide (newStartMs < max existStart.time existEnd.time) &&
        decide (min existStart.time existEnd.time < newEndMs)
      | _, _ => false)

/-- `addSpan(span)`: resolves the two anchor markers, computes the effective
interval, rejects (no-op) when it overlaps an existing span on the same
tier+video, otherwise appends the span with the generated id `newId`. -/
def addSpan (newId : String) (span : SpanInput) (s : AnnotationState) :
    AnnotationState :=
  match findMarker s.markers span.startMarkerId,
        findMarker s.markers span.endMarkerId with
  | some newStart, some newEnd =>
    let newStartMs := min newStart.time newEnd.time
    let newEndMs := max newStart.time newEnd.time
    if addSpanOverlapping s span newStartMs newEndMs then s
    else
      { s with spans := s.spans ++
          [{ id := newId, startMarkerId := span.startMarkerId,
             endMarkerId := span.endMarkerId, tierId := span.tierId,
             videoId := span.videoId, gloss := span.gloss }] }
  | _, _ => s

/-- JavaScript `Set.add`: append unless already present. -/
def setAdd (l : List String) (x : String) : List String :=
  if l.contains x then l else l ++ [x]

/-- `[keepSpan.gloss, removeSpan.gloss].filter(Boolean).join(' + ')`. -/
def combineGlosses (g1 g2 : String) : String :=
  String.intercalate " + " (([g1, g2]).filter (fun g => g != ""))

/-- `mergeSpans`'s safety check: the merged interval would intersect a
third span (with existing anchors) on the keep span's tier+video. -/
def mergeOverlapsThird (s : AnnotationState) (keepSpanId removeSpanId : String)
    (keepSpan : AnnotationSpan) (mergedStartMs mergedEndMs : Int) : Bool :=
  s.spans.any (fun sp =>
    if sp.id == keepSpanId || sp.id == removeSpanId then false
    else if sp.tierId != keepSpan.tierId ||
        sp.videoId != keepSpan.videoId then false
    else
      match findMarker s.markers sp.startMarkerId,
            findMarker s.markers sp.endMarkerId with
      | some sm, some em =>
        decide (mergedStartMs < max sm.time em.time) &&
        decide (min sm.time em.time < mergedEndMs)
      | _, _ => false)

/-- `mergeSpans`'s commit step: the final outer anchors by span start order,
the deletion of the intermediate markers (except those reused as final
anchors) and of the removed span, and the combined gloss. -/
def mergeCommit (s : AnnotationState) (keepSpanId removeSpanId : String)
    (keepSpan removeSpan : AnnotationSpan)
    (keepStart keepEnd removeStart removeEnd : Marker) : AnnotationState :=
  let keepStartMs := min keepStart.time keepEnd.time
  let removeStartMs := min removeStart.time removeEnd.time
  let isKeepFirst := decide (keepStartMs ≤ removeStartMs)
  let finalStartMarkerId :=
    if isKeepFirst then keepSpan.startMarkerId else removeSpan.startMarkerId
  let finalEndMarkerId :=
    if isKeepFirst then removeSpan.endMarkerId else keepSpan.endMarkerId
  let removeMarkerIds :=
    (setAdd (setAdd []
        (if isKeepFirst then keepSpan.endMarkerId
         else removeSpan.endMarkerId))
      (if isKeepFirst then removeSpan.startMarkerId
       else keepSpan.startMarkerId)).filter (fun x =>
      x != finalStartMarkerId && x != finalEndMarkerId)
  let combinedGloss := combineGlosses keepSpan.gloss removeSpan.gloss
  { s with
    markers := s.markers.filter (fun m => !(removeMarkerIds.contains m.id)),
    spans := (s.spans.filter (fun sp => sp.id != removeSpanId)).map
      (fun sp =>
        if sp.id == keepSpanId then
          { sp with startMarkerId := finalStartMarkerId,
                    endMarkerId := finalEndMarkerId,
                    gloss := combinedGloss }
        else sp),
    selectedSpanId := some keepSpanId,
    selectedMarkerId := none }

/-- `mergeSpans(keepSpanId, removeSpanId)`: validates, rejects when the
merged interval would overlap a third span, otherwise commits.  Returns the
success flag together with the new state. -/
def mergeSpans (keepSpanId removeSpanId : String) (s : AnnotationState) :
    Bool × AnnotationState :=
  match findSpan s.spans keepSpanId, findSpan s.spans removeSpanId with
  | some keepSpan, some removeSpan =>
    if keepSpan.tierId != removeSpan.tierId ||
        keepSpan.videoId != removeSpan.videoId then (false, s)
    else
      match findMarker s.markers keepSpan.startMarkerId,
            findMarker s.markers keepSpan.endMarkerId,
            findMarker s.markers removeSpan.startMarkerId,
            findMarker s.markers removeSpan.endMarkerId with
      | some keepStart, some keepEnd, some removeStart, some removeEnd =>
        let keepStartMs := min keepStart.time keepEnd.time
        let keepEndMs := max keepStart.time keepEnd.time
        let removeStartMs := min removeStart.time removeEnd.time
        let removeEndMs := max removeStart.time removeEnd.time
        let mergedStartMs := min keepStartMs removeStartMs
        let mergedEndMs := max keepEndMs removeEndMs
        if mergeOverlapsThird s keepSpanId removeSpanId keepSpan
            mergedStartMs mergedEndMs then (false, s)
        else
          (true, mergeCommit s keepSpanId removeSpanId keepSpan removeSpan
            keepStart keepEnd removeStart removeEnd)
      | _, _, _, _ => (false, s)
  | _, _ => (false, s)

/-- The mutable accumulator of `clearOverlappingSpans`'s loop:
`removeSpanIds`/`removeMarkerIds` are JavaScript `Set`s and
`markerTimeUpdates` a JavaScript `Map`. -/
structure ClearAcc where
  removeSpanIds : List String := []
  removeMarkerIds : List String := []
  markerTimeUpdates : List (String × Int) := []
  deriving Repr, DecidableEq

/-- JavaScript `Map.set`: overwrite the existing binding or append. -/
def mapSet (m : List (String × Int)) (k : String) (v : Int) :
    List (String × Int) :=
  if m.any (fun p => p.1 == k) then
    m.map (fun p => if p.1 == k then (k, v) else p)
  else m ++ [(k, v)]

/-- JavaScript `Map.get`. -/
def mapLookup (m : List (String × Int)) (k : String) : Option Int :=
  (m.find? (fun p => p.1 == k)).map (fun p => p.2)

/-- One iteration of `clearOverlappingSpans`'s `for` loop over the spans. -/
def clearStep (markers : List Marker) (startMs endMs : Int)
    (tierId videoId : String) (acc : ClearAcc) (span : AnnotationSpan) :
    ClearAcc :=
  if span.tierId != tierId || span.videoId != videoId then acc
  else
    match findMarker markers span.startMarkerId,
          findMarker markers span.endMarkerId with
    | some sM, some eM =>
      let sTime := min sM.time eM.time
      let eTime := max sM.time eM.time
      if sTime ≥ endMs ∨ eTime ≤ startMs then acc
      else if sTime ≥ startMs ∧ eTime ≤ endMs then
        { acc with
          removeSpanIds := setAdd acc.removeSpanIds span.id,
          removeMarkerIds :=
            setAdd (setAdd acc.removeMarkerIds span.startMarkerId)
              span.endMarkerId }
      else if sTime < startMs ∧ eTime > endMs then
        let endMarkerId :=
          if sM.time ≤ eM.time then span.endMarkerId else span.startMarkerId
        { acc with
          markerTimeUpdates := mapSet acc.markerTimeUpdates endMarkerId startMs }
      else if sTime < startMs then
        let endMarkerId :=
          if sM.time ≤ eM.time then span.endMarkerId else span.startMarkerId
        { acc with
          markerTimeUpdates := mapSet acc.markerTimeUpdates endMarkerId startMs }
      else
        let startMarkerId :=
          if sM.time ≤ eM.time then span.startMarkerId else span.endMarkerId
        { acc with
          markerTimeUpdates := mapSet acc.markerTimeUpdates startMarkerId endMs }
    | _, _ => acc

/-- `clearOverlappingSpans(startMs, endMs, tierId, videoId)`: classifies every
span on the tier+video against the range, then removes the completely
contained spans together with their markers and applies the boundary trims. -/
def clearOverlappingSpans (startMs endMs : Int) (tierId videoId : String)
    (s : AnnotationState) : AnnotationState :=
  let acc := s.spans.foldl (clearStep s.markers startMs endMs tierId videoId) {}
  if acc.removeSpanIds.isEmpty ∧ acc.markerTimeUpdates.isEmpty then s
  else
    { s with
      markers := (s.markers.filter (fun m =>
          !(acc.removeMarkerIds.contains m.id))).map (fun m =>
        match mapLookup acc.markerTimeUpdates m.id with
        | some t => { m with time := t }
        | none => m),
      spans := s.spans.filter (fun sp => !(acc.removeSpanIds.contains sp.id)) }

/-- The effective half-open interval of a span:
`[min(startTime, endTime), max(startTime, endTime))`, when both anchor
markers exist. -/
def effInterval (markers : List Marker) (sp : AnnotationSpan) :
    Option (Int × Int) :=
  match findMarker markers sp.startMarkerId, findMarker markers sp.endMarkerId with
  | some sM, some eM => some (min sM.time eM.time, max sM.time eM.time)
  | _, _ => none

/-- Two optional half-open intervals intersect (`false` when either anchor
pair is missing, matching the store's overlap checks). -/
def intervalsHit : Option (Int × Int) → Option (Int × Int) → Bool
  | some (a, b), some (c, d) => decide (a < d) && decide (c < b)
  | _, _ => false

/-- The no-overlap invariant: any two spans at different positions of the
spans list that lie on the same tier and video and whose four anchor markers
exist have non-intersecting effective `[start, end)` intervals. -/
def NoOverlap (s : AnnotationState) : Prop :=
  s.spans.Pairwise (fun sp1 sp2 =>
    sp1.tierId = sp2.tierId → sp1.videoId = sp2.videoId →
      intervalsHit (effInterval s.markers sp1) (effInterval s.markers sp2) =
        false)

/-- The span ids are pairwise distinct. -/
def SpanIdsNodup (s : AnnotationState) : Prop :=
  (s.spans.map (fun sp => sp.id)).Nodup

/-- No span references a marker id that is absent from the markers list. -/
def NoDangling (s : AnnotationState) : Prop :=
  ∀ sp ∈ s.spans,
    (findMarker s.markers sp.startMarkerId).isSome = true ∧
    (findMarker s.markers sp.endMarkerId).isSome = true

instance (s : AnnotationState) : Decidable (NoOverlap s) := by
  unfold NoOverlap; infer_instance

instance (s : AnnotationState) : Decidable (SpanIdsNodup s) := by
  unfold SpanIdsNodup; infer_instance

instance (s : AnnotationState) : Decidable (NoDangling s) := by
  unfold NoDangling; infer_instance

/-- One span-level store mutation (for sequences of span operations). -/
inductive SpanOp where
  | add (newId : String) (inp : SpanInput)
  | merge (keepSpanId removeSpanId : String)
  | clear (startMs endMs : Int) (tierId videoId : String)
  deriving Repr, DecidableEq

/-- Apply one span operation to the store. -/
def applySpanOp : SpanOp → AnnotationState → AnnotationState
  | .add i inp, s => addSpan i inp s
  | .merge k r, s => (mergeSpans k r s).2
  | .clear a b t v, s => clearOverlappingSpans a b t v s

/-- Run a sequence of span operations. -/
def execSpanOps : List SpanOp → AnnotationState → AnnotationState
  | [], s => s
  | op :: rest, s => execSpanOps rest (applySpanOp op s)

/-- The operation's generated id (when it has one) is not already carried by
a span of the state. -/
def opIdFresh : SpanOp → AnnotationState → Prop
  | .add i _, s => ∀ sp ∈ s.spans, sp.id ≠ i
  | .merge _ _, _ => True
  | .clear _ _ _ _, _ => True

instance : (op : SpanOp) → (s : AnnotationState) → Decidable (opIdFresh op s)
  | .add _ _, _ => by unfold opIdFresh; infer_instance
  | .merge _ _, _ => by unfold opIdFresh; exact inferInstanceAs (Decidable True)
  | .clear _ _ _ _, _ => by unfold opIdFresh; exact inferInstanceAs (Decidable True)

/-- Every `add` in the sequence uses a generated id not already carried by a
span (what `generateId`'s unique ids provide). -/
def FreshAdds : List SpanOp → AnnotationState → Prop
  | [], _ => True
  | op :: rest, s => opIdFresh op s ∧ FreshAdds rest (applySpanOp op s)

instance instDecidableFreshAdds :
    (ops : List SpanOp) → (s : AnnotationState) → Decidable (FreshAdds ops s)
  | [], _ => by unfold FreshAdds; exact inferInstanceAs (Decidable True)
  | op :: rest, s => by
    unfold FreshAdds
    have := instDecidableFreshAdds rest (applySpanOp op s)
    infer_instance

/-- One marker-lifecycle store operation. -/
inductive PcOp where
  | place (id : String) (time : Int) (tierId videoId : String)
  | confirm (markerId typeId : String)
  | cancel
  deriving Repr, DecidableEq

/-- Apply one marker-lifecycle operation to the store. -/
def applyPcOp : PcOp → AnnotationState → AnnotationState
  | .place i t tr v, s => placeMarker i t tr v s
  | .confirm m ty, s => confirmMarker m ty s
  | .cancel, s => cancelPendingMarker s

/-- Run a sequence of marker-lifecycle operations. -/
def execPcOps : List PcOp → AnnotationState → AnnotationState
  | [], s => s
  | op :: rest, s => execPcOps rest (applyPcOp op s)

/-- Number of unconfirmed markers in the store. -/
def unconfirmedCount (s : AnnotationState) : Nat :=
  (s.markers.filter (fun m => !m.confirmed)).length

/-- The operation, when it is a `place`, happens on a state with no
unconfirmed marker. -/
def opPlacesClean : PcOp → AnnotationState → Prop
  | .place _ _ _ _, s => unconfirmedCount s = 0
  | .confirm _ _, _ => True
  | .cancel, _ => True

instance : (op : PcOp) → (s : AnnotationState) → Decidable (opPlacesClean op s)
  | .place _ _ _ _, _ => by unfold opPlacesClean; infer_instance
  | .confirm _ _, _ => by unfold opPlacesClean; exact inferInstanceAs (Decidable True)
  | .cancel, _ => by unfold opPlacesClean; exact inferInstanceAs (Decidable True)

/-- Every `place` in the sequence happens on a state with no unconfirmed
marker (the discipline the store's callers follow: cancel the pending
marker before placing another one). -/
def PlacesOnClean : List PcOp → AnnotationState → Prop
  | [], _ => True
  | op :: rest, s => opPlacesClean op s ∧ PlacesOnClean rest (applyPcOp op s)

instance instDecidablePlacesOnClean :
    (ops : List PcOp) → (s : AnnotationState) → Decidable (PlacesOnClean ops s)
  | [], _ => by unfold PlacesOnClean; exact inferInstanceAs (Decidable True)
  | op :: rest, s => by
    unfold PlacesOnClean
    have := instDecidablePlacesOnClean rest (applyPcOp op s)
    infer_instance

/-!
## The undo/redo history

The store is wrapped in the `zundo` `temporal` middleware with the options
of the source: `limit: 100` and `partialize` projecting the state to
`(markers, spans)`.  The middleware itself is an external dependency and is
not part of the repository's files; `TemporalStore`, `trackMutation`,
`undo` and `redo` below are modelled from the spec: every tracked mutation
pushes the previous partialized state onto a bounded past stack and clears
the future stack; `undo` restores the top past snapshot and pushes the
current snapshot onto the future stack; `redo` is the inverse.
-/

/-- A history entry: only the `(markers, spans)` projection is recorded. -/
structure Snapshot where
  markers : List Marker
  spans : List AnnotationSpan
  deriving Repr, DecidableEq

/-- `partialize`: the `(markers, spans)` projection of the state
(from the temporal options in the source). -/
def partialize (s : AnnotationState) : Snapshot :=
  { markers := s.markers, spans := s.spans }

/-- Apply a snapshot to a state: only `markers` and `spans` are replaced. -/
def applySnapshot (p : Snapshot) (s : AnnotationState) : AnnotationState :=
  { s with markers := p.markers, spans := p.spans }

/-- The history cap of the source's temporal options. -/
def historyLimit : Nat := 100

/-- The store together with its undo/redo stacks. -/
structure TemporalStore where
  state : AnnotationState
  pastStates : List Snapshot := []
  futureStates : List Snapshot := []
  deriving Repr, DecidableEq

/-- Modelled from the spec: a tracked mutation snapshots the previous
partialized state into the bounded history and clears the redo stack. -/
def trackMutation (f : AnnotationState → AnnotationState)
    (t : TemporalStore) : TemporalStore :=
  { state := f t.state,
    pastStates := (partialize t.state :: t.pastStates).take historyLimit,
    futureStates := [] }

/-- Modelled from the spec: `undo` restores the most recent past snapshot
(no-op on an empty history). -/
def undo (t : TemporalStore) : TemporalStore :=
  match t.pastStates with
  | [] => t
  | p :: rest =>
    { state := applySnapshot p t.state,
      pastStates := rest,
      futureStates := (partialize t.state :: t.futureStates).take historyLimit }

/-- Modelled from the spec: `redo` restores the most recent future snapshot
(no-op on an empty redo stack). -/
def redo (t : TemporalStore) : TemporalStore :=
  match t.futureStates with
  | [] => t
  | p :: rest =>
    { state := applySnapshot p t.state,
      pastStates := (partialize t.state :: t.pastStates).take historyLimit,
      futureStates := rest }

/-!
## Export services (`src/services/export/csv-exporter.ts`)

Both exporters receive a `now : String` argument modelling the wall-clock
reading (`new Date().toISOString()`) available at the moment of the call.
The source of `exportMarkersCsv` contains no clock access, so its embedding
never reads `now`; the source of `exportAnnotationsJson` writes the clock
reading into its `exportedAt` field.  Marker times are integer milliseconds,
so `Math.round` is the identity and `(time / 1000).toFixed(3)` is exact
decimal formatting.
-/

/-- `csvEscape`: wrap in double quotes, escaping internal double quotes when
the value holds a quote, comma or newline. -/
def csvEscape (value : String) : String :=
  if value.contains '"' || value.contains ',' || value.contains '\n' then
    "\"" ++ value.replace "\"" "\"\"" ++ "\""
  else "\"" ++ value ++ "\""

/-- Stable insertion of a marker into a list sorted by ascending time. -/
def sortedInsertByTime (m : Marker) : List Marker → List Marker
  | [] => [m]
  | x :: xs =>
    if m.time ≤ x.time then m :: x :: xs else x :: sortedInsertByTime m xs

/-- `.sort((a, b) => a.time - b.time)`: JavaScript's stable ascending sort
by marker time. -/
def sortByTime (l : List Marker) : List Marker :=
  l.foldr sortedInsertByTime []

/-- `new Map(pairs).get(k)`: the value of the last pair carrying the key. -/
def jsMapGet {α : Type} (pairs : List (String × α)) (k : String) : Option α :=
  pairs.foldl (fun acc p => if p.1 == k then some p.2 else acc) none

/-- Left-pad a decimal string to three digits. -/
def pad3 (n : Nat) : String :=
  let s := toString n
  if s.length < 3 then String.mk (List.replicate (3 - s.length) '0') ++ s else s

/-- `(timeMs / 1000).toFixed(3)` for an integer number of milliseconds. -/
def toFixed3 (t : Int) : String :=
  if t < 0 then "-" ++ toString (t.natAbs / 1000) ++ "." ++ pad3 (t.natAbs % 1000)
  else toString (t.natAbs / 1000) ++ "." ++ pad3 (t.natAbs % 1000)

/-- `exportMarkersCsv(markers, tiers, markerTypes, videoName, annotatorId?,
spans?)`: a UTF-8 BOM, a header and one row per confirmed marker sorted by
time, then (when spans with existing anchors are passed) a blank line, a
span header and one row per valid span. -/
def exportMarkersCsv (now : String) (markers : List Marker) (tiers : List Tier)
    (markerTypes : List MarkerType) (videoName : String)
    (annotatorId : Option String) (spans : Option (List AnnotationSpan)) :
    String :=
  let _ := now
  let confirmed := sortByTime (markers.filter (fun m => m.confirmed))
  let tierMap := tiers.map (fun t => (t.id, t.name))
  let typeMap := markerTypes.map (fun mt => (mt.id, mt.name))
  let markerMap := markers.map (fun m => (m.id, m))
  let headerRow := String.intercalate ","
    ["Video", "Time (ms)", "Time (s)", "Tier", "Marker Type", "Annotator"]
  let markerRows := confirmed.map (fun m =>
    String.intercalate ","
      [csvEscape videoName,
       toString m.time,
       toFixed3 m.time,
       csvEscape ((jsMapGet tierMap m.tierId).getD ""),
       csvEscape ((jsMapGet typeMap m.typeId).getD ""),
       csvEscape (annotatorId.getD "")])
  let spanRows :=
    match spans with
    | some sl =>
      if sl.length > 0 then
        let validSpans := sl.filter (fun sp =>
          (jsMapGet markerMap sp.startMarkerId).isSome &&
          (jsMapGet markerMap sp.endMarkerId).isSome)
        if validSpans.length > 0 then
          "" ::
          String.intercalate ","
            ["Video", "Start Time (ms)", "End Time (ms)", "Duration (ms)",
             "Tier", "Gloss"] ::
          validSpans.map (fun sp =>
            let startTime :=
              ((jsMapGet markerMap sp.startMarkerId).map
                (fun m => m.time)).getD 0
            let endTime :=
              ((jsMapGet markerMap sp.endMarkerId).map (fun m => m.time)).getD 0
            String.intercalate ","
              [csvEscape videoName,
               toString startTime,
               toString endTime,
               toString (endTime - startTime),
               csvEscape ((jsMapGet tierMap sp.tierId).getD ""),
               csvEscape sp.gloss])
        else []
      else []
    | none => []
  "\uFEFF" ++ String.intercalate "\n" ((headerRow :: markerRows) ++ spanRows)

/-- One hexadecimal digit (lowercase). -/
def hexDigit (n : Nat) : Char :=
  if n < 10 then Char.ofNat (48 + n) else Char.ofNat (87 + n)

/-- Four hexadecimal digits. -/
def hex4 (n : Nat) : String :=
  String.mk [hexDigit (n / 4096 % 16), hexDigit (n / 256 % 16),
    hexDigit (n / 16 % 16), hexDigit (n % 16)]

/-- `JSON.stringify`'s escaping of one character inside a string literal. -/
def jsonEscapeChar (c : Char) : String :=
  if c = '"' then "\\\""
  else if c = '\\' then "\\\\"
  else if c = '\n' then "\\n"
  else if c = '\r' then "\\r"
  else if c = '\t' then "\\t"
  else if c = Char.ofNat 8 then "\\b"
  else if c = Char.ofNat 12 then "\\f"
  else if c.toNat < 32 then "\\u" ++ hex4 c.toNat
  else String.singleton c

/-- `JSON.stringify`'s escaping of a string's characters. -/
def jsonEscape (s : String) : String :=
  String.join (s.data.map jsonEscapeChar)

/-- A rendered JSON string literal. -/
def jsonStr (s : String) : String :=
  "\"" ++ jsonEscape s ++ "\""

/-- `n` spaces. -/
def pad (n : Nat) : String :=
  String.mk (List.replicate n ' ')

/-- `JSON.stringify(obj, null, 2)`'s layout of an object whose fields are
already rendered, when the opening brace sits at indentation `indent`. -/
def jsonObjAt (indent : Nat) (fields : List (String × String)) : String :=
  "\x7b\n" ++
  String.intercalate ",\n" (fields.map (fun f =>
    pad (indent + 2) ++ "\"" ++ jsonEscape f.1 ++ "\": " ++ f.2)) ++
  "\n" ++ pad indent ++ "\x7d"

/-- `JSON.stringify(obj, null, 2)`'s layout of an array whose elements are
already rendered, when the opening bracket sits at indentation `indent`. -/
def jsonArrAt (indent : Nat) (elems : List String) : String :=
  if elems.isEmpty then "[]"
  else
    "[\n" ++ String.intercalate ",\n" (elems.map (fun e => pad (indent + 2) ++ e)) ++
    "\n" ++ pad indent ++ "]"

/-- `exportAnnotationsJson(markers, spans, tiers, markerTypes, videoName,
annotator?, version?)`: `JSON.stringify` with two-space indentation of the
export object — video name, `exportedAt` (the clock reading `now`), the
optional truthy annotator and version, the tiers, the marker types, the
confirmed markers sorted by time with resolved names, and the spans whose
anchors exist. -/
def exportAnnotationsJson (now : String) (markers : List Marker)
    (spans : List AnnotationSpan) (tiers : List Tier)
    (markerTypes : List MarkerType) (videoName : String)
    (annotator : Option String) (version : Option String) : String :=
  let tierMap := tiers.map (fun t => (t.id, t.name))
  let typeMap := markerTypes.map (fun mt => (mt.id, mt.name))
  let markerMap := markers.map (fun m => (m.id, m))
  let validSpans := spans.filter (fun sp =>
    (jsMapGet markerMap sp.startMarkerId).isSome &&
    (jsMapGet markerMap sp.endMarkerId).isSome)
  let annotatorFields :=
    match annotator with
    | some a => if a != "" then [("annotator", jsonStr a)] else []
    | none => []
  let versionFields :=
    match version with
    | some v => if v != "" then [("version", jsonStr v)] else []
    | none => []
  jsonObjAt 0
    ([("video", jsonStr videoName), ("exportedAt", jsonStr now)] ++
     annotatorFields ++ versionFields ++
     [("tiers", jsonArrAt 2 (tiers.map (fun t =>
        jsonObjAt 4 [("id", jsonStr t.id), ("name", jsonStr t.name)]))),
      ("markerTypes", jsonArrAt 2 (markerTypes.map (fun mt =>
        jsonObjAt 4 [("id", jsonStr mt.id), ("name", jsonStr mt.name),
          ("key", jsonStr mt.key)]))),
      ("markers", jsonArrAt 2
        ((sortByTime (markers.filter (fun m => m.confirmed))).map (fun m =>
          jsonObjAt 4 [("id", jsonStr m.id), ("time", toString m.time),
            ("type", jsonStr ((jsMapGet typeMap m.typeId).getD "")),
            ("tier", jsonStr ((jsMapGet tierMap m.tierId).getD ""))]))),
      ("spans", jsonArrAt 2 (validSpans.map (fun sp =>
        jsonObjAt 4
          [("start", toString (((jsMapGet markerMap sp.startMarkerId).map
              (fun m => m.time)).getD 0)),
           ("end", toString (((jsMapGet markerMap sp.endMarkerId).map
              (fun m => m.time)).getD 0)),
           ("gloss", jsonStr sp.gloss),
           ("tier", jsonStr ((jsMapGet tierMap sp.tierId).getD ""))])))])

/-!
## Shared list lemmas
-/

/-- Witness for C6 at a concrete mutation and store. -/
def c6Store : TemporalStore :=
  { state :=
      { markers :=
          [{ id := "m1", time := 3, typeId := "ty", tierId := "t",
             videoId := "v", confirmed := true }] } }

/-- Before the cancel: two unconfirmed markers and a span anchored on the
pending one (adding a span on unconfirmed markers is accepted). -/
def c7Pre : AnnotationState :=
  addSpan "sp1"
    { startMarkerId := "m1", endMarkerId := "m2", tierId := "t",
      videoId := "v", gloss := "" }
    (placeMarker "m2" 10 "t" "v" (placeMarker "m1" 0 "t" "v" initialState))

/-- The store of the spec's merge-rejection example: spans `[0,1000]` and
`[1500,2500]` to merge, and a third span occupying `[2000,3000]`. -/
def c3Store : AnnotationState :=
  { markers :=
      [{ id := "m1", time := 0, typeId := "x", tierId := "t", videoId := "v",
         confirmed := true },
       { id := "m2", time := 1000, typeId := "x", tierId := "t",
         videoId := "v", confirmed := true },
       { id := "m3", time := 1500, typeId := "x", tierId := "t",
         videoId := "v", confirmed := true },
       { id := "m4", time := 2500, typeId := "x", tierId := "t",
         videoId := "v", confirmed := true },
       { id := "m5", time := 2000, typeId := "x", tierId := "t",
         videoId := "v", confirmed := true },
       { id := "m6", time := 3000, typeId := "x", tierId := "t",
         videoId := "v", confirmed := true }],
    spans :=
      [{ id := "A", startMarkerId := "m1", endMarkerId := "m2",
         tierId := "t", videoId := "v", gloss := "a" },
       { id := "B", startMarkerId := "m3", endMarkerId := "m4",
         tierId := "t", videoId := "v", gloss := "b" },
       { id := "C", startMarkerId := "m5", endMarkerId := "m6",
         tierId := "t", videoId := "v", gloss := "c" }] }

/-- The store of the C10 witness: one span `[0,1000]` alone on its tier. -/
def c10Store : AnnotationState :=
  { markers :=
      [{ id := "m1", time := 0, typeId := "x", tierId := "t", videoId := "v",
         confirmed := true },
       { id := "m2", time := 1000, typeId := "x", tierId := "t",
         videoId := "v", confirmed := true }],
    spans :=
      [{ id := "A", startMarkerId := "m1", endMarkerId := "m2",
         tierId := "t", videoId := "v", gloss := "G" }] }

/-- A store whose keep span is stored in reverse orientation: its start
marker `m1` sits at 1000 ms and its end marker `m2` at 0 ms; the remove
span `[2000,3000]` is oriented normally. -/
def c2RevStore : AnnotationState :=
  { markers :=
      [{ id := "m1", time := 1000, typeId := "x", tierId := "t",
         videoId := "v", confirmed := true },
       { id := "m2", time := 0, typeId := "x", tierId := "t", videoId := "v",
         confirmed := true },
       { id := "m3", time := 2000, typeId := "x", tierId := "t",
         videoId := "v", confirmed := true },
       { id := "m4", time := 3000, typeId := "x", tierId := "t",
         videoId := "v", confirmed := true }],
    spans :=
      [{ id := "A", startMarkerId := "m1", endMarkerId := "m2",
         tierId := "t", videoId := "v", gloss := "HELLO" },
       { id := "B", startMarkerId := "m3", endMarkerId := "m4",
         tierId := "t", videoId := "v", gloss := "WORLD" }] }

/-- The spec's merge example: `A = [0,1000]` glossed `HELLO` adjacent to
`B = [1000,2000]` glossed `WORLD`, with separate boundary markers. -/
def c2Store : AnnotationState :=
  { markers :=
      [{ id := "m1", time := 0, typeId := "x", tierId := "t", videoId := "v",
         confirmed := true },
       { id := "m2", time := 1000, typeId := "x", tierId := "t",
         videoId := "v", confirmed := true },
       { id := "m3", time := 1000, typeId := "x", tierId := "t",
         videoId := "v", confirmed := true },
       { id := "m4", time := 2000, typeId := "x", tierId := "t",
         videoId := "v", confirmed := true }],
    spans :=
      [{ id := "A", startMarkerId := "m1", endMarkerId := "m2",
         tierId := "t", videoId := "v", gloss := "HELLO" },
       { id := "B", startMarkerId := "m3", endMarkerId := "m4",
         tierId := "t", videoId := "v", gloss := "WORLD" }] }

/-- The final start anchor id the commit step picks (keep's when the keep
span starts first, else remove's). -/
def mergeFinalStart (K R : AnnotationSpan) (kS kE rS rE : Marker) : String :=
  if decide (min kS.time kE.time ≤ min rS.time rE.time) then K.startMarkerId
  else R.startMarkerId

/-- The final end anchor id the commit step picks. -/
def mergeFinalEnd (K R : AnnotationSpan) (kS kE rS rE : Marker) : String :=
  if decide (min kS.time kE.time ≤ min rS.time rE.time) then R.endMarkerId
  else K.endMarkerId

/-- The marker ids the commit step deletes: the two intermediate anchors,
minus any reused as a final anchor. -/
def mergeRemovedIds (K R : AnnotationSpan) (kS kE rS rE : Marker) :
    List String :=
  (setAdd (setAdd []
      (if decide (min kS.time kE.time ≤ min rS.time rE.time) then
        K.endMarkerId
      else R.endMarkerId))
    (if decide (min kS.time kE.time ≤ min rS.time rE.time) then
      R.startMarkerId
    else K.startMarkerId)).filter (fun x =>
    x != mergeFinalStart K R kS kE rS rE && x != mergeFinalEnd K R kS kE rS rE)

def opIsClear : SpanOp → Bool
  | .clear _ _ _ _ => true
  | _ => false

/-- The C1 counterexample store.  The marker `m2` anchors the tier-`t1`
span `A = [1000,1200]` and is also the end anchor of the tier-`t2` span
`B = [0,1000]`; `C = [1050,1500]` also lies on tier `t2`. -/
def c1Store : AnnotationState :=
  { markers :=
      [{ id := "m1", time := 0, typeId := "x", tierId := "t2",
         videoId := "v", confirmed := true },
       { id := "m2", time := 1000, typeId := "x", tierId := "t2",
         videoId := "v", confirmed := true },
       { id := "m3", time := 1050, typeId := "x", tierId := "t2",
         videoId := "v", confirmed := true },
       { id := "m4", time := 1500, typeId := "x", tierId := "t2",
         videoId := "v", confirmed := true },
       { id := "m6", time := 1200, typeId := "x", tierId := "t1",
         videoId := "v", confirmed := true }],
    spans :=
      [{ id := "B", startMarkerId := "m1", endMarkerId := "m2",
         tierId := "t2", videoId := "v", gloss := "" },
       { id := "C", startMarkerId := "m3", endMarkerId := "m4",
         tierId := "t2", videoId := "v", gloss := "" },
       { id := "A", startMarkerId := "m2", endMarkerId := "m6",
         tierId := "t1", videoId := "v", gloss := "" }] }

/-- The C1 witness store: one span `[0,1000]`, two free markers at 1000 and
2000 for a new adjacent span. -/
def c1StoreW : AnnotationState :=
  { markers :=
      [{ id := "m1", time := 0, typeId := "x", tierId := "t", videoId := "v",
         confirmed := true },
       { id := "m2", time := 1000, typeId := "x", tierId := "t",
         videoId := "v", confirmed := true },
       { id := "m3", time := 1000, typeId := "x", tierId := "t",
         videoId := "v", confirmed := true },
       { id := "m4", time := 2000, typeId := "x", tierId := "t",
         videoId := "v", confirmed := true }],
    spans :=
      [{ id := "A", startMarkerId := "m1", endMarkerId := "m2",
         tierId := "t", videoId := "v", gloss := "a" }] }

def c1OpsW : List SpanOp :=
  [.add "B" { startMarkerId := "m3", endMarkerId := "m4", tierId := "t",
              videoId := "v", gloss := "b" },
   .merge "A" "B"]

/-- An overlapping `addSpan` proposal for the witness: the store already
holds `[0,1000]` and the proposal spans `[500,1500]`. -/
def c1OverlapStore : AnnotationState :=
  { markers :=
      [{ id := "m1", time := 0, typeId := "x", tierId := "t", videoId := "v",
         confirmed := true },
       { id := "m2", time := 1000, typeId := "x", tierId := "t",
         videoId := "v", confirmed := true },
       { id := "ma", time := 500, typeId := "x", tierId := "t",
         videoId := "v", confirmed := true },
       { id := "mb", time := 1500, typeId := "x", tierId := "t",
         videoId := "v", confirmed := true }],
    spans :=
      [{ id := "A", startMarkerId := "m1", endMarkerId := "m2",
         tierId := "t", videoId := "v", gloss := "a" }] }

def c1InpW : SpanInput :=
  { startMarkerId := "ma", endMarkerId := "mb", tierId := "t",
    videoId := "v", gloss := "n" }

/-- The C8 witness store: confirming the pending marker `m3` at 500 ms,
which falls strictly inside the span `[0,1000]`, snaps that span's end
marker `m2` to 500 ms. -/
def c8Store : AnnotationState :=
  { markers :=
      [{ id := "m1", time := 0, typeId := "x", tierId := "t", videoId := "v",
         confirmed := true },
       { id := "m2", time := 1000, typeId := "x", tierId := "t",
         videoId := "v", confirmed := true },
       { id := "m3", time := 500, typeId := "", tierId := "t",
         videoId := "v", confirmed := false }],
    spans :=
      [{ id := "A", startMarkerId := "m1", endMarkerId := "m2",
         tierId := "t", videoId := "v", gloss := "a" }],
    pendingMarkerId := some "m3" }

/-- The span is classified "completely contained" by
`clearOverlappingSpans`'s loop: same tier+video, anchors exist, it overlaps
the range and lies inside it. -/
def clearRemoves (markers : List Marker) (startMs endMs : Int)
    (tierId videoId : String) (span : AnnotationSpan) : Bool :=
  if span.tierId != tierId || span.videoId != videoId then false
  else
    match findMarker markers span.startMarkerId,
          findMarker markers span.endMarkerId with
    | some sM, some eM =>
      let sTime := min sM.time eM.time
      let eTime := max sM.time eM.time
      if sTime ≥ endMs ∨ eTime ≤ startMs then false
      else if sTime ≥ startMs ∧ eTime ≤ endMs then true
      else false
    | _, _ => false

/-- The single boundary trim the loop records for the span, when any. -/
def clearWrite (markers : List Marker) (startMs endMs : Int)
    (tierId videoId : String) (span : AnnotationSpan) :
    Option (String × Int) :=
  if span.tierId != tierId || span.videoId != videoId then none
  else
    match findMarker markers span.startMarkerId,
          findMarker markers span.endMarkerId with
    | some sM, some eM =>
      let sTime := min sM.time eM.time
      let eTime := max sM.time eM.time
      if sTime ≥ endMs ∨ eTime ≤ startMs then none
      else if sTime ≥ startMs ∧ eTime ≤ endMs then none
      else if sTime < startMs ∧ eTime > endMs then
        some (if sM.time ≤ eM.time then span.endMarkerId
          else span.startMarkerId, startMs)
      else if sTime < startMs then
        some (if sM.time ≤ eM.time then span.endMarkerId
          else span.startMarkerId, startMs)
      else
        some (if sM.time ≤ eM.time then span.startMarkerId
          else span.endMarkerId, endMs)
    | _, _ => none

/-- The later spans' trim of a marker wins (`Map.set` overwrites). -/
def lastWrite (markers : List Marker) (startMs endMs : Int)
    (tierId videoId : String) : List AnnotationSpan → String → Option Int
  | [], _ => none
  | sp :: rest, x =>
    match lastWrite markers startMs endMs tierId videoId rest x with
    | some v => some v
    | none =>
      match clearWrite markers startMs endMs tierId videoId sp with
      | some (kk, v) => if kk == x then some v else none
      | none => none

/-- Two spans sharing the middle boundary marker `m2`: `A = [0, 1000)` and
`B = [1000, 2000)` on the same tier and video. -/
def c4Store : AnnotationState :=
  { markers := [
      { id := "m1", time := 0, typeId := "ty", tierId := "t", videoId := "v",
        confirmed := true },
      { id := "m2", time := 1000, typeId := "ty", tierId := "t",
        videoId := "v", confirmed := true },
      { id := "m3", time := 2000, typeId := "ty", tierId := "t",
        videoId := "v", confirmed := true }],
    spans := [
      { id := "A", startMarkerId := "m1", endMarkerId := "m2",
        tierId := "t", videoId := "v", gloss := "left" },
      { id := "B", startMarkerId := "m2", endMarkerId := "m3",
        tierId := "t", videoId := "v", gloss := "right" }] }

/-- Two spans `A = [0, 1000)` and `B = [2000, 3000)` with four distinct,
unshared anchor markers on one tier and video. -/
def c4StoreW : AnnotationState :=
  { markers := [
      { id := "m1", time := 0, typeId := "ty", tierId := "t", videoId := "v",
        confirmed := true },
      { id := "m2", time := 1000, typeId := "ty", tierId := "t",
        videoId := "v", confirmed := true },
      { id := "m3", time := 2000, typeId := "ty", tierId := "t",
        videoId := "v", confirmed := true },
      { id := "m4", time := 3000, typeId := "ty", tierId := "t",
        videoId := "v", confirmed := true }],
    spans := [
      { id := "A", startMarkerId := "m1", endMarkerId := "m2",
        tierId := "t", videoId := "v", gloss := "left" },
      { id := "B", startMarkerId := "m3", endMarkerId := "m4",
        tierId := "t", videoId := "v", gloss := "right" }] }

theorem find?_filter_of_imp {α : Type} (l : List α) (p q : α → Bool)
    (h : ∀ a, p a = true → q a = true) :
    (l.filter q).find? p = l.find? p := by
  induction l with
  | nil => rfl
  | cons a l ih =>
    simp only [List.filter_cons]
    cases hqa : q a
    · have hpa : p a = false := by
        cases hpa : p a
        · rfl
        · rw [h a hpa] at hqa; cases hqa
      simp [List.find?_cons, hpa, ih]
    · simp only [if_pos rfl]
      cases hpa : p a <;> simp [List.find?_cons, hpa, ih]

theorem find?_map_of_pred {α : Type} (l : List α) (f : α → α) (p : α → Bool)
    (hf : ∀ a, p (f a) = p a) :
    (l.map f).find? p = (l.find? p).map f := by
  induction l with
  | nil => rfl
  | cons a l ih =>
    cases hpa : p a <;> simp [List.find?_cons, hf, hpa, ih]

theorem find?_eq_none_of_all {α : Type} (l : List α) (p : α → Bool)
    (h : ∀ a ∈ l, p a = false) : l.find? p = none := by
  rw [List.find?_eq_none]
  intro x hx
  simp [h x hx]

theorem mem_setAdd {l : List String} {x y : String} :
    y ∈ setAdd l x ↔ y ∈ l ∨ y = x := by
  unfold setAdd
  by_cases hx : l.contains x
  · rw [if_pos hx]
    constructor
    · exact Or.inl
    · rintro (h | rfl)
      · exact h
      · simpa using hx
  · rw [if_neg hx]
    simp [List.mem_append]

/-- `findMarker` ignores a filter that only drops markers of other ids. -/
theorem findMarker_filter_not_removed (markers : List Marker)
    (q : Marker → Bool) (x : String) (hq : ∀ m, m.id = x → q m = true) :
    findMarker (markers.filter q) x = findMarker markers x := by
  unfold findMarker
  exact find?_filter_of_imp markers _ q (fun a ha => hq a (by simpa using ha))

/-- `findMarker` over a filter that drops every marker of the id. -/
theorem findMarker_filter_removed (markers : List Marker)
    (q : Marker → Bool) (x : String) (hq : ∀ m, m.id = x → q m = false) :
    findMarker (markers.filter q) x = none := by
  unfold findMarker
  apply find?_eq_none_of_all
  intro a ha
  rcases List.mem_filter.mp ha with ⟨-, hqa⟩
  cases hax : (a.id == x)
  · rfl
  · rw [hq a (by simpa using hax)] at hqa; cases hqa

/-- `findMarker` commutes with an id-preserving map. -/
theorem findMarker_map_of_id (markers : List Marker) (f : Marker → Marker)
    (x : String) (hf : ∀ m, (f m).id = m.id) :
    findMarker (markers.map f) x = (findMarker markers x).map f := by
  unfold findMarker
  exact find?_map_of_pred markers f _ (fun a => by rw [hf])

theorem intervalsHit_comm (o1 o2 : Option (Int × Int)) :
    intervalsHit o1 o2 = intervalsHit o2 o1 := by
  rcases o1 with _ | ⟨a, b⟩ <;> rcases o2 with _ | ⟨c, d⟩ <;>
    simp [intervalsHit, Bool.and_comm]

/-!
## C6: undo/redo round trips
-/

/-- **C6.**  For every store state and every mutating annotation-store
operation `f` tracked through the temporal middleware, running `f` followed
by `undo` restores the `(markers, spans)` pair exactly, and running `f`,
`undo`, `redo` restores the pair produced by `f`; the history records only
the `(markers, spans)` projection (the `Snapshot` type of the stacks), and
the past stack stays bounded by 100 entries. -/
theorem claim_C6 (f : AnnotationState → AnnotationState) (t : TemporalStore) :
    partialize (undo (trackMutation f t)).state = partialize t.state ∧
    partialize (redo (undo (trackMutation f t))).state =
      partialize (trackMutation f t).state ∧
    (t.pastStates.length ≤ historyLimit →
      (trackMutation f t).pastStates.length ≤ historyLimit ∧
      (undo t).pastStates.length ≤ historyLimit ∧
      (redo t).pastStates.length ≤ historyLimit) := by
  refine ⟨?_, ?_, ?_⟩
  · simp [trackMutation, undo, historyLimit, partialize, applySnapshot]
  · simp [trackMutation, undo, redo, historyLimit, partialize, applySnapshot]
  · intro h
    refine ⟨?_, ?_, ?_⟩
    · simp only [trackMutation, List.length_take]
      exact min_le_left _ _
    · unfold undo
      cases hp : t.pastStates with
      | nil => exact h
      | cons p rest =>
        simp only
        have hlen : rest.length + 1 ≤ historyLimit := by
          rw [hp] at h; simpa using h
        exact le_trans (Nat.le_succ _) hlen
    · unfold redo
      cases hf : t.futureStates with
      | nil => simpa using h
      | cons p rest =>
        simp only [List.length_take]
        exact min_le_left _ _

theorem claim_C6_witness :
    partialize (undo (trackMutation (removeMarker "m1") c6Store)).state =
      partialize c6Store.state ∧
    (trackMutation (removeMarker "m1") c6Store).pastStates.length ≤
      historyLimit :=
  ⟨(claim_C6 (removeMarker "m1") c6Store).1,
   ((claim_C6 (removeMarker "m1") c6Store).2.2 (by decide)).1⟩

/-!
## C7: cascading deletes
-/

/-- **C7, counterexample.**  From a store with no dangling references,
`cancelPendingMarker` deletes the pending marker `m2` but leaves the span
anchored on it in place, so a span references a marker id absent from the
markers list — the claimed invariant fails on a marker-deleting path. -/
theorem claim_C7_counterexample :
    NoDangling c7Pre ∧ ¬ NoDangling (cancelPendingMarker c7Pre) := by
  constructor
  · decide
  · decide

/-- **C7, amended.**  `removeMarker` removes every span anchored on the
removed marker in the same operation: afterwards no marker and no span
anchor carries the removed id, and the no-dangling-reference invariant is
preserved.  The other marker-deleting paths (`cancelPendingMarker`,
`mergeSpans`, `clearOverlappingSpans`) do not cascade to spans that
reference the deleted markers but are outside the operation, so the
invariant holds only for `removeMarker`. -/
theorem claim_C7_amended (s : AnnotationState) (id : String) :
    (∀ m ∈ (removeMarker id s).markers, m.id ≠ id) ∧
    (∀ sp ∈ (removeMarker id s).spans,
      sp.startMarkerId ≠ id ∧ sp.endMarkerId ≠ id) ∧
    (NoDangling s → NoDangling (removeMarker id s)) := by
  refine ⟨?_, ?_, ?_⟩
  · intro m hm
    rcases List.mem_filter.mp hm with ⟨-, hq⟩
    simpa using hq
  · intro sp hsp
    rcases List.mem_filter.mp hsp with ⟨-, hq⟩
    constructor
    · intro hx
      simp [removeMarker, hx] at hq
    · intro hx
      simp [removeMarker, hx] at hq
  · intro hnd sp hsp
    rcases List.mem_filter.mp hsp with ⟨hmem, hq⟩
    have hs : sp.startMarkerId ≠ id := by
      intro hx; simp [hx] at hq
    have he : sp.endMarkerId ≠ id := by
      intro hx; simp [hx] at hq
    rcases hnd sp hmem with ⟨h1, h2⟩
    constructor
    · rw [show (removeMarker id s).markers =
          s.markers.filter (fun m => m.id != id) from rfl,
        findMarker_filter_not_removed _ _ _
          (fun m hm => by simp [hm, hs])]
      exact h1
    · rw [show (removeMarker id s).markers =
          s.markers.filter (fun m => m.id != id) from rfl,
        findMarker_filter_not_removed _ _ _
          (fun m hm => by simp [hm, he])]
      exact h2

/-- Witness for the amended C7 at a concrete store: removing `m1` deletes
the span anchored on it. -/
theorem claim_C7_witness :
    NoDangling c7Pre ∧
    ((∀ m ∈ (removeMarker "m1" c7Pre).markers, m.id ≠ "m1") ∧
     (∀ sp ∈ (removeMarker "m1" c7Pre).spans,
       sp.startMarkerId ≠ "m1" ∧ sp.endMarkerId ≠ "m1") ∧
     NoDangling (removeMarker "m1" c7Pre)) :=
  ⟨by decide,
   ⟨(claim_C7_amended c7Pre "m1").1, (claim_C7_amended c7Pre "m1").2.1,
    (claim_C7_amended c7Pre "m1").2.2 (by decide)⟩⟩

/-!
## C5: the single-pending invariant
-/

theorem unconfirmed_length_map_le (l : List Marker) (f : Marker → Marker)
    (hf : ∀ m, (f m).confirmed = false → m.confirmed = false) :
    ((l.map f).filter (fun m => !m.confirmed)).length ≤
      (l.filter (fun m => !m.confirmed)).length := by
  induction l with
  | nil => rfl
  | cons a l ih =>
    simp only [List.map_cons, List.filter_cons]
    cases hfa : (f a).confirmed
    · rw [hf a hfa]
      simpa using Nat.succ_le_succ ih
    · cases ha : a.confirmed
      · simpa using le_trans ih (Nat.le_succ _)
      · simpa using ih

theorem unconfirmedCount_place (id : String) (t : Int) (tr v : String)
    (s : AnnotationState) (h : unconfirmedCount s = 0) :
    unconfirmedCount (placeMarker id t tr v s) = 1 := by
  unfold unconfirmedCount at h ⊢
  simp only [placeMarker, List.filter_append, List.length_append, h]
  rfl

theorem unconfirmedCount_confirm (mId ty : String) (s : AnnotationState) :
    unconfirmedCount (confirmMarker mId ty s) ≤ unconfirmedCount s := by
  unfold confirmMarker
  cases hfind : findMarker s.markers mId with
  | none => simp
  | some marker =>
    simp only [unconfirmedCount]
    apply unconfirmed_length_map_le
    intro m hm
    by_cases h1 : (m.id == mId) = true
    · simp [h1] at hm
    · cases hsnap : ((s.spans.find? (markerInsideSpan s marker)).map
        (fun span => span.endMarkerId)) with
      | none => rw [hsnap] at hm; simp [h1] at hm; exact hm
      | some sid =>
        rw [hsnap] at hm
        by_cases h2 : (m.id == sid) = true
        · simp [h1, h2] at hm; exact hm
        · simp [h1, h2] at hm; exact hm

theorem unconfirmedCount_cancel (s : AnnotationState) :
    unconfirmedCount (cancelPendingMarker s) ≤ unconfirmedCount s := by
  unfold cancelPendingMarker
  cases hp : s.pendingMarkerId with
  | none => simp
  | some pid =>
    simp only [unconfirmedCount]
    exact List.Sublist.length_le
      (List.Sublist.filter _ (List.filter_sublist s.markers))

theorem placesOnClean_inv (pre suf : List PcOp) (s : AnnotationState)
    (hc : PlacesOnClean (pre ++ suf) s) (h1 : unconfirmedCount s ≤ 1) :
    unconfirmedCount (execPcOps pre s) ≤ 1 := by
  induction pre generalizing s with
  | nil => exact h1
  | cons op rest ih =>
    rw [List.cons_append] at hc
    rcases hc with ⟨hop, hrest⟩
    refine ih (applyPcOp op s) hrest ?_
    cases op with
    | place i t tr v =>
      have h0 : unconfirmedCount s = 0 := hop
      simpa [applyPcOp] using le_of_eq (unconfirmedCount_place i t tr v s h0)
    | confirm m ty =>
      exact le_trans (unconfirmedCount_confirm m ty s) h1
    | cancel =>
      exact le_trans (unconfirmedCount_cancel s) h1

/-- **C5, counterexample.**  Two `placeMarker` calls in a row from the empty
store leave two markers with `confirmed = false`: `placeMarker` records the
new marker as the pending one but does not cancel or confirm the previous
pending marker, so the claimed at-most-one-unconfirmed invariant fails. -/
theorem claim_C5_counterexample :
    unconfirmedCount (execPcOps
      [.place "m1" 0 "t" "v", .place "m2" 5 "t" "v"] initialState) = 2 := by
  decide

/-- **C5, amended.**  For every sequence of `placeMarker`, `confirmMarker`
and `cancelPendingMarker` calls starting from the empty store in which
`placeMarker` is only invoked on a state with no unconfirmed marker (the
discipline the UI callers follow by cancelling before placing), at most one
marker has `confirmed = false` at every point of the sequence. -/
theorem claim_C5_amended (ops pre suf : List PcOp)
    (hclean : PlacesOnClean ops initialState) (hsplit : ops = pre ++ suf) :
    unconfirmedCount (execPcOps pre initialState) ≤ 1 := by
  subst hsplit
  exact placesOnClean_inv pre suf initialState hclean (by decide)

/-- Witness for the amended C5: place, confirm, then place again. -/
theorem claim_C5_witness :
    PlacesOnClean
      [.place "m1" 0 "t" "v", .confirm "m1" "ty", .place "m2" 7 "t" "v"]
      initialState ∧
    unconfirmedCount (execPcOps [.place "m1" 0 "t" "v", .confirm "m1" "ty"]
      initialState) ≤ 1 :=
  ⟨by decide,
   claim_C5_amended
     [.place "m1" 0 "t" "v", .confirm "m1" "ty", .place "m2" 7 "t" "v"]
     [.place "m1" 0 "t" "v", .confirm "m1" "ty"]
     [.place "m2" 7 "t" "v"] (by decide) rfl⟩

/-!
## Evaluation lemmas for `mergeSpans`
-/

theorem mergeSpans_success (s : AnnotationState) (k r : String)
    (K R : AnnotationSpan) (kS kE rS rE : Marker)
    (hK : findSpan s.spans k = some K) (hR : findSpan s.spans r = some R)
    (ht : K.tierId = R.tierId) (hv : K.videoId = R.videoId)
    (h1 : findMarker s.markers K.startMarkerId = some kS)
    (h2 : findMarker s.markers K.endMarkerId = some kE)
    (h3 : findMarker s.markers R.startMarkerId = some rS)
    (h4 : findMarker s.markers R.endMarkerId = some rE)
    (hthird : mergeOverlapsThird s k r K
      (min (min kS.time kE.time) (min rS.time rE.time))
      (max (max kS.time kE.time) (max rS.time rE.time)) = false) :
    mergeSpans k r s = (true, mergeCommit s k r K R kS kE rS rE) := by
  unfold mergeSpans
  rw [hK, hR]
  dsimp only
  have hcond : (K.tierId != R.tierId || K.videoId != R.videoId) = false := by
    simp [ht, hv]
  rw [hcond]
  simp only [Bool.false_eq_true, if_false]
  rw [h1, h2, h3, h4]
  dsimp only
  rw [hthird]
  simp only [Bool.false_eq_true, if_false]

theorem mergeSpans_keep_missing (s : AnnotationState) (k r : String)
    (hK : findSpan s.spans k = none) :
    mergeSpans k r s = (false, s) := by
  unfold mergeSpans
  rw [hK]

theorem mergeSpans_remove_missing (s : AnnotationState) (k r : String)
    (hR : findSpan s.spans r = none) :
    mergeSpans k r s = (false, s) := by
  unfold mergeSpans
  rw [hR]
  cases hK : findSpan s.spans k <;> rfl

theorem mergeSpans_tier_mismatch (s : AnnotationState) (k r : String)
    (K R : AnnotationSpan)
    (hK : findSpan s.spans k = some K) (hR : findSpan s.spans r = some R)
    (hne : K.tierId ≠ R.tierId ∨ K.videoId ≠ R.videoId) :
    mergeSpans k r s = (false, s) := by
  unfold mergeSpans
  rw [hK, hR]
  dsimp only
  have hcond : (K.tierId != R.tierId || K.videoId != R.videoId) = true := by
    rcases hne with h | h <;> simp [h]
  rw [hcond]
  rfl

theorem mergeSpans_marker_missing (s : AnnotationState) (k r : String)
    (K R : AnnotationSpan)
    (hK : findSpan s.spans k = some K) (hR : findSpan s.spans r = some R)
    (hmiss : findMarker s.markers K.startMarkerId = none ∨
      findMarker s.markers K.endMarkerId = none ∨
      findMarker s.markers R.startMarkerId = none ∨
      findMarker s.markers R.endMarkerId = none) :
    mergeSpans k r s = (false, s) := by
  unfold mergeSpans
  rw [hK, hR]
  dsimp only
  cases hcond : (K.tierId != R.tierId || K.videoId != R.videoId)
  · simp only [hcond, Bool.false_eq_true, if_false]
    cases ha : findMarker s.markers K.startMarkerId <;>
      cases hb : findMarker s.markers K.endMarkerId <;>
        cases hc : findMarker s.markers R.startMarkerId <;>
          cases hd : findMarker s.markers R.endMarkerId <;>
            first
              | rfl
              | (rcases hmiss with h | h | h | h <;> simp_all)
  · simp only [hcond, if_true]

theorem mergeSpans_would_overlap (s : AnnotationState) (k r : String)
    (K R : AnnotationSpan) (kS kE rS rE : Marker)
    (hK : findSpan s.spans k = some K) (hR : findSpan s.spans r = some R)
    (h1 : findMarker s.markers K.startMarkerId = some kS)
    (h2 : findMarker s.markers K.endMarkerId = some kE)
    (h3 : findMarker s.markers R.startMarkerId = some rS)
    (h4 : findMarker s.markers R.endMarkerId = some rE)
    (hthird : mergeOverlapsThird s k r K
      (min (min kS.time kE.time) (min rS.time rE.time))
      (max (max kS.time kE.time) (max rS.time rE.time)) = true) :
    mergeSpans k r s = (false, s) := by
  unfold mergeSpans
  rw [hK, hR]
  dsimp only
  cases hcond : (K.tierId != R.tierId || K.videoId != R.videoId)
  · simp only [hcond, Bool.false_eq_true, if_false]
    rw [h1, h2, h3, h4]
    dsimp only
    rw [hthird]
    simp only [if_true]
  · simp only [hcond, if_true]

/-- A third span with existing anchors on the keep span's tier+video whose
effective interval intersects the merged interval makes the overlap check
fire. -/
theorem mergeOverlapsThird_of_witness (s : AnnotationState) (k r : String)
    (K : AnnotationSpan) (mS mE : Int) (sp : AnnotationSpan)
    (hmem : sp ∈ s.spans) (hnk : sp.id ≠ k) (hnr : sp.id ≠ r)
    (htier : sp.tierId = K.tierId) (hvid : sp.videoId = K.videoId)
    (hhit : intervalsHit (effInterval s.markers sp) (some (mS, mE)) = true) :
    mergeOverlapsThird s k r K mS mE = true := by
  apply List.any_eq_true.mpr
  refine ⟨sp, hmem, ?_⟩
  have hid : (sp.id == k || sp.id == r) = false := by simp [hnk, hnr]
  rw [hid]
  simp only [Bool.false_eq_true, if_false]
  have htv : (sp.tierId != K.tierId || sp.videoId != K.videoId) = false := by
    simp [htier, hvid]
  rw [htv]
  simp only [Bool.false_eq_true, if_false]
  unfold effInterval at hhit
  cases ha : findMarker s.markers sp.startMarkerId with
  | none => rw [ha] at hhit; simp [intervalsHit] at hhit
  | some sm =>
    cases hb : findMarker s.markers sp.endMarkerId with
    | none => rw [ha, hb] at hhit; simp [intervalsHit] at hhit
    | some em =>
      rw [ha, hb] at hhit
      simp only [intervalsHit, Bool.and_eq_true, decide_eq_true_eq] at hhit
      simp [hhit.1, hhit.2]

/-!
## C3: `mergeSpans` validation failures
-/

/-- **C3.**  `mergeSpans(keepId, removeId)` returns `false` and leaves the
store completely unchanged whenever validation fails: either span id does
not exist, the two spans differ in `tierId` or `videoId`, any of the four
anchor markers does not exist, or the merged interval
`[min(starts), max(ends))` would intersect a third span on the same tier
and video. -/
theorem claim_C3 (s : AnnotationState) (keepId removeId : String)
    (h :
      findSpan s.spans keepId = none ∨
      findSpan s.spans removeId = none ∨
      (∃ K R, findSpan s.spans keepId = some K ∧
        findSpan s.spans removeId = some R ∧
        (K.tierId ≠ R.tierId ∨ K.videoId ≠ R.videoId)) ∨
      (∃ K R, findSpan s.spans keepId = some K ∧
        findSpan s.spans removeId = some R ∧
        (findMarker s.markers K.startMarkerId = none ∨
         findMarker s.markers K.endMarkerId = none ∨
         findMarker s.markers R.startMarkerId = none ∨
         findMarker s.markers R.endMarkerId = none)) ∨
      (∃ K R kS kE rS rE, findSpan s.spans keepId = some K ∧
        findSpan s.spans removeId = some R ∧
        findMarker s.markers K.startMarkerId = some kS ∧
        findMarker s.markers K.endMarkerId = some kE ∧
        findMarker s.markers R.startMarkerId = some rS ∧
        findMarker s.markers R.endMarkerId = some rE ∧
        ∃ sp ∈ s.spans, sp.id ≠ keepId ∧ sp.id ≠ removeId ∧
          sp.tierId = K.tierId ∧ sp.videoId = K.videoId ∧
          intervalsHit (effInterval s.markers sp)
            (some (min (min kS.time kE.time) (min rS.time rE.time),
                   max (max kS.time kE.time) (max rS.time rE.time))) = true)) :
    mergeSpans keepId removeId s = (false, s) := by
  rcases h with h | h | ⟨K, R, hK, hR, hne⟩ | ⟨K, R, hK, hR, hmiss⟩ |
    ⟨K, R, kS, kE, rS, rE, hK, hR, h1, h2, h3, h4, sp, hmem, hnk, hnr,
      htier, hvid, hhit⟩
  · exact mergeSpans_keep_missing s keepId removeId h
  · exact mergeSpans_remove_missing s keepId removeId h
  · exact mergeSpans_tier_mismatch s keepId removeId K R hK hR hne
  · exact mergeSpans_marker_missing s keepId removeId K R hK hR hmiss
  · exact mergeSpans_would_overlap s keepId removeId K R kS kE rS rE hK hR
      h1 h2 h3 h4
      (mergeOverlapsThird_of_witness s keepId removeId K _ _ sp hmem hnk hnr
        htier hvid hhit)

/-- Witness for C3: merging `A` and `B` would extend the merged interval to
`2500`, intersecting the third span `[2000,3000]`; the call returns `false`
and the store is unchanged. -/
theorem claim_C3_witness :
    mergeSpans "A" "B" c3Store = (false, c3Store) :=
  claim_C3 c3Store "A" "B" (Or.inr (Or.inr (Or.inr (Or.inr
    ⟨{ id := "A", startMarkerId := "m1", endMarkerId := "m2", tierId := "t",
       videoId := "v", gloss := "a" },
     { id := "B", startMarkerId := "m3", endMarkerId := "m4", tierId := "t",
       videoId := "v", gloss := "b" },
     { id := "m1", time := 0, typeId := "x", tierId := "t", videoId := "v",
       confirmed := true },
     { id := "m2", time := 1000, typeId := "x", tierId := "t", videoId := "v",
       confirmed := true },
     { id := "m3", time := 1500, typeId := "x", tierId := "t", videoId := "v",
       confirmed := true },
     { id := "m4", time := 2500, typeId := "x", tierId := "t", videoId := "v",
       confirmed := true },
     by decide, by decide, by decide, by decide, by decide, by decide,
     ⟨{ id := "C", startMarkerId := "m5", endMarkerId := "m6", tierId := "t",
        videoId := "v", gloss := "c" },
      by decide, by decide, by decide, by decide, by decide, by decide⟩⟩))))

/-- `mergeSpans`'s third-span check is false exactly when no third span
with existing anchors on the keep span's tier+video intersects the merged
interval. -/
theorem mergeOverlapsThird_eq_false_iff (s : AnnotationState) (k r : String)
    (K : AnnotationSpan) (mS mE : Int) :
    mergeOverlapsThird s k r K mS mE = false ↔
    ∀ sp ∈ s.spans, sp.id ≠ k → sp.id ≠ r → sp.tierId = K.tierId →
      sp.videoId = K.videoId →
      intervalsHit (effInterval s.markers sp) (some (mS, mE)) = false := by
  constructor
  · intro h sp hmem hnk hnr htier hvid
    have hall := List.any_eq_false.mp h sp hmem
    simp only [Bool.not_eq_true] at hall
    have hid : (sp.id == k || sp.id == r) = false := by simp [hnk, hnr]
    rw [hid] at hall
    simp only [Bool.false_eq_true, if_false] at hall
    have htv : (sp.tierId != K.tierId || sp.videoId != K.videoId) = false := by
      simp [htier, hvid]
    rw [htv] at hall
    simp only [Bool.false_eq_true, if_false] at hall
    unfold effInterval
    cases ha : findMarker s.markers sp.startMarkerId with
    | none => rfl
    | some sm =>
      cases hb : findMarker s.markers sp.endMarkerId with
      | none => rfl
      | some em =>
        rw [ha, hb] at hall
        simp only [Bool.and_eq_false_iff] at hall
        simp only [intervalsHit, Bool.and_eq_false_iff]
        rcases hall with h' | h'
        · exact Or.inr h'
        · exact Or.inl h'
  · intro h
    apply List.any_eq_false.mpr
    intro sp hmem
    simp only [Bool.not_eq_true]
    cases hid : (sp.id == k || sp.id == r)
    · simp only [Bool.false_eq_true, if_false]
      cases htv : (sp.tierId != K.tierId || sp.videoId != K.videoId)
      · simp only [Bool.false_eq_true, if_false]
        have hnk : sp.id ≠ k := by
          intro hx; simp [hx] at hid
        have hnr : sp.id ≠ r := by
          intro hx; simp [hx] at hid
        have htier : sp.tierId = K.tierId := by
          rcases Bool.or_eq_false_iff.mp htv with ⟨ha, -⟩
          simpa using ha
        have hvid : sp.videoId = K.videoId := by
          rcases Bool.or_eq_false_iff.mp htv with ⟨-, hb⟩
          simpa using hb
        have hhit := h sp hmem hnk hnr htier hvid
        cases ha : findMarker s.markers sp.startMarkerId with
        | none => rfl
        | some sm =>
          cases hb : findMarker s.markers sp.endMarkerId with
          | none => rfl
          | some em =>
            unfold effInterval at hhit
            rw [ha, hb] at hhit
            simp only [intervalsHit, Bool.and_eq_false_iff] at hhit ⊢
            rcases hhit with h' | h'
            · exact Or.inr h'
            · exact Or.inl h'
      · simp only [htv, if_true]
    · simp only [hid, if_true]

/-!
## C10: merging a span with itself
-/

/-- **C10.**  For every store containing a span `sp` whose two anchor
markers exist and whose effective interval does not intersect any other
span on its tier and video, `mergeSpans(sp.id, sp.id)` — the same id passed
as both keep and remove — returns `true` and deletes the span entirely (no
merged span remains), while the markers list, and in particular both anchor
markers, are left untouched. -/
theorem claim_C10 (s : AnnotationState) (k : String) (sp : AnnotationSpan)
    (sS sE : Marker)
    (hK : findSpan s.spans k = some sp)
    (h1 : findMarker s.markers sp.startMarkerId = some sS)
    (h2 : findMarker s.markers sp.endMarkerId = some sE)
    (hother : ∀ q ∈ s.spans, q.id ≠ k → q.tierId = sp.tierId →
      q.videoId = sp.videoId →
      intervalsHit (effInterval s.markers q) (effInterval s.markers sp) =
        false) :
    (mergeSpans k k s).1 = true ∧
    (mergeSpans k k s).2.markers = s.markers ∧
    (mergeSpans k k s).2.spans = s.spans.filter (fun q => q.id != k) ∧
    (∀ q ∈ (mergeSpans k k s).2.spans, q.id ≠ k) ∧
    findMarker (mergeSpans k k s).2.markers sp.startMarkerId = some sS ∧
    findMarker (mergeSpans k k s).2.markers sp.endMarkerId = some sE := by
  have heff : effInterval s.markers sp =
      some (min sS.time sE.time, max sS.time sE.time) := by
    unfold effInterval
    rw [h1, h2]
  have hthird : mergeOverlapsThird s k k sp
      (min (min sS.time sE.time) (min sS.time sE.time))
      (max (max sS.time sE.time) (max sS.time sE.time)) = false := by
    apply List.any_eq_false.mpr
    intro q hq
    simp only [Bool.not_eq_true]
    cases hid : (q.id == k || q.id == k)
    · simp only [Bool.false_eq_true, if_false]
      cases htv : (q.tierId != sp.tierId || q.videoId != sp.videoId)
      · simp only [Bool.false_eq_true, if_false]
        have hqid : q.id ≠ k := by
          intro hx
          simp [hx] at hid
        have hqt : q.tierId = sp.tierId := by
          rcases Bool.or_eq_false_iff.mp htv with ⟨ha, -⟩
          simpa using ha
        have hqv : q.videoId = sp.videoId := by
          rcases Bool.or_eq_false_iff.mp htv with ⟨-, hb⟩
          simpa using hb
        have hhit := hother q hq hqid hqt hqv
        rw [heff] at hhit
        cases ha : findMarker s.markers q.startMarkerId with
        | none => rfl
        | some qa =>
          cases hb : findMarker s.markers q.endMarkerId with
          | none => rfl
          | some qb =>
            unfold effInterval at hhit
            rw [ha, hb] at hhit
            simp only [intervalsHit, Bool.and_eq_false_iff] at hhit ⊢
            simp only [min_self, max_self]
            rcases hhit with h | h
            · exact Or.inr h
            · exact Or.inl h
      · simp only [htv, if_true]
    · simp only [hid, if_true]
  have hres := mergeSpans_success s k k sp sp sS sE sS sE hK hK rfl rfl
    h1 h2 h1 h2 hthird
  have hkf : decide (min sS.time sE.time ≤ min sS.time sE.time) = true := by
    simp
  have hset : (setAdd (setAdd [] sp.endMarkerId) sp.startMarkerId).filter
      (fun x => x != sp.startMarkerId && x != sp.endMarkerId) = [] := by
    unfold setAdd
    by_cases hse : sp.startMarkerId = sp.endMarkerId
    · simp [List.filter, hse]
    · have hc : List.contains ([] ++ [sp.endMarkerId]) sp.startMarkerId =
          false := by
        simp [List.contains_eq_any_beq, hse]
      simp only [List.contains_nil, Bool.false_eq_true, if_false] at *
      rw [hc]
      simp [List.filter, hse]
  have hcommit1 : (mergeCommit s k k sp sp sS sE sS sE).markers = s.markers := by
    unfold mergeCommit
    dsimp only
    rw [hkf]
    simp only [if_true]
    rw [hset]
    apply List.filter_eq_self.mpr
    intro m hm
    simp
  have hcommit2 : (mergeCommit s k k sp sp sS sE sS sE).spans =
      s.spans.filter (fun q => q.id != k) := by
    unfold mergeCommit
    dsimp only
    rw [hkf]
    simp only [if_true]
    have hcong : ∀ q ∈ s.spans.filter (fun q => q.id != k),
        (if q.id == k then
          { q with startMarkerId := sp.startMarkerId,
                   endMarkerId := sp.endMarkerId,
                   gloss := combineGlosses sp.gloss sp.gloss }
         else q) = id q := by
      intro q hq
      rcases List.mem_filter.mp hq with ⟨-, hne⟩
      have hne' : q.id ≠ k := by simpa using hne
      have hb : (q.id == k) = false := by simpa using hne'
      simp [hb]
    rw [List.map_congr_left hcong, List.map_id]
  refine ⟨by rw [hres], ?_, ?_, ?_, ?_, ?_⟩
  · rw [hres]; exact hcommit1
  · rw [hres]; exact hcommit2
  · intro q hq
    rw [hres] at hq
    rw [hcommit2] at hq
    rcases List.mem_filter.mp hq with ⟨-, hne⟩
    intro hx
    simp [hx] at hne
  · rw [hres]; rw [hcommit1]; exact h1
  · rw [hres]; rw [hcommit1]; exact h2

/-- Witness for C10: self-merging the lone span deletes it and keeps both
markers. -/
theorem claim_C10_witness :
    (mergeSpans "A" "A" c10Store).1 = true ∧
    (mergeSpans "A" "A" c10Store).2.markers = c10Store.markers ∧
    (mergeSpans "A" "A" c10Store).2.spans =
      c10Store.spans.filter (fun q => q.id != "A") ∧
    (∀ q ∈ (mergeSpans "A" "A" c10Store).2.spans, q.id ≠ "A") ∧
    findMarker (mergeSpans "A" "A" c10Store).2.markers "m1" =
      some { id := "m1", time := 0, typeId := "x", tierId := "t",
             videoId := "v", confirmed := true } ∧
    findMarker (mergeSpans "A" "A" c10Store).2.markers "m2" =
      some { id := "m2", time := 1000, typeId := "x", tierId := "t",
             videoId := "v", confirmed := true } :=
  claim_C10 c10Store "A"
    { id := "A", startMarkerId := "m1", endMarkerId := "m2", tierId := "t",
      videoId := "v", gloss := "G" }
    { id := "m1", time := 0, typeId := "x", tierId := "t", videoId := "v",
      confirmed := true }
    { id := "m2", time := 1000, typeId := "x", tierId := "t", videoId := "v",
      confirmed := true }
    (by decide) (by decide) (by decide) (by decide)

/-!
## C2: the merge success path
-/

theorem not_contains_pair (a b x : String) :
    (!(List.contains [a, b] x)) = (x != a && x != b) := by
  by_cases h1 : x = a
  · simp [h1, List.contains_eq_any_beq]
  · by_cases h2 : x = b
    · simp [h2, List.contains_eq_any_beq]
    · simp [List.contains_eq_any_beq, h1, h2]

/-- Evaluation of `mergeCommit` when the keep span starts first and the
four anchor ids are pairwise distinct. -/
theorem mergeCommit_keepFirst (s : AnnotationState) (k r : String)
    (K R : AnnotationSpan) (kS kE rS rE : Marker)
    (hkf : decide (min kS.time kE.time ≤ min rS.time rE.time) = true)
    (hd1 : K.endMarkerId ≠ R.startMarkerId)
    (hd2 : K.endMarkerId ≠ K.startMarkerId)
    (hd3 : K.endMarkerId ≠ R.endMarkerId)
    (hd4 : R.startMarkerId ≠ K.startMarkerId)
    (hd5 : R.startMarkerId ≠ R.endMarkerId) :
    mergeCommit s k r K R kS kE rS rE =
      { s with
        markers := s.markers.filter (fun m =>
          m.id != K.endMarkerId && m.id != R.startMarkerId),
        spans := (s.spans.filter (fun q => q.id != r)).map (fun q =>
          if q.id == k then
            { q with startMarkerId := K.startMarkerId,
                     endMarkerId := R.endMarkerId,
                     gloss := combineGlosses K.gloss R.gloss }
          else q),
        selectedSpanId := some k,
        selectedMarkerId := none } := by
  unfold mergeCommit
  dsimp only
  rw [hkf]
  simp only [if_true]
  have hset : (setAdd (setAdd [] K.endMarkerId) R.startMarkerId).filter
      (fun x => x != K.startMarkerId && x != R.endMarkerId) =
      [K.endMarkerId, R.startMarkerId] := by
    unfold setAdd
    have hc : List.contains ([] ++ [K.endMarkerId]) R.startMarkerId =
        false := by
      simp [List.contains_eq_any_beq]
      intro h
      exact absurd h.symm hd1
    simp only [List.contains_nil, Bool.false_eq_true, if_false]
    rw [hc]
    simp only [Bool.false_eq_true, if_false, List.nil_append]
    simp only [List.filter]
    have e1 : (K.endMarkerId != K.startMarkerId &&
        K.endMarkerId != R.endMarkerId) = true := by simp [hd2, hd3]
    have e2 : (R.startMarkerId != K.startMarkerId &&
        R.startMarkerId != R.endMarkerId) = true := by simp [hd4, hd5]
    rw [e1, e2]
  rw [hset]
  have hfc : s.markers.filter (fun m =>
      !(List.contains [K.endMarkerId, R.startMarkerId] m.id)) =
      s.markers.filter (fun m =>
        m.id != K.endMarkerId && m.id != R.startMarkerId) :=
    List.filter_congr (fun m _ => not_contains_pair _ _ m.id)
  rw [hfc]

/-- Evaluation of `mergeCommit` when the remove span starts first and the
four anchor ids are pairwise distinct. -/
theorem mergeCommit_removeFirst (s : AnnotationState) (k r : String)
    (K R : AnnotationSpan) (kS kE rS rE : Marker)
    (hkf : decide (min kS.time kE.time ≤ min rS.time rE.time) = false)
    (hd1 : R.endMarkerId ≠ K.startMarkerId)
    (hd2 : R.endMarkerId ≠ R.startMarkerId)
    (hd3 : R.endMarkerId ≠ K.endMarkerId)
    (hd4 : K.startMarkerId ≠ R.startMarkerId)
    (hd5 : K.startMarkerId ≠ K.endMarkerId) :
    mergeCommit s k r K R kS kE rS rE =
      { s with
        markers := s.markers.filter (fun m =>
          m.id != R.endMarkerId && m.id != K.startMarkerId),
        spans := (s.spans.filter (fun q => q.id != r)).map (fun q =>
          if q.id == k then
            { q with startMarkerId := R.startMarkerId,
                     endMarkerId := K.endMarkerId,
                     gloss := combineGlosses K.gloss R.gloss }
          else q),
        selectedSpanId := some k,
        selectedMarkerId := none } := by
  unfold mergeCommit
  dsimp only
  rw [hkf]
  simp only [Bool.false_eq_true, if_false]
  have hset : (setAdd (setAdd [] R.endMarkerId) K.startMarkerId).filter
      (fun x => x != R.startMarkerId && x != K.endMarkerId) =
      [R.endMarkerId, K.startMarkerId] := by
    unfold setAdd
    have hc : List.contains ([] ++ [R.endMarkerId]) K.startMarkerId =
        false := by
      simp [List.contains_eq_any_beq]
      intro h
      exact absurd h.symm hd1
    simp only [List.contains_nil, Bool.false_eq_true, if_false]
    rw [hc]
    simp only [Bool.false_eq_true, if_false, List.nil_append]
    simp only [List.filter]
    have e1 : (R.endMarkerId != R.startMarkerId &&
        R.endMarkerId != K.endMarkerId) = true := by simp [hd2, hd3]
    have e2 : (K.startMarkerId != R.startMarkerId &&
        K.startMarkerId != K.endMarkerId) = true := by simp [hd4, hd5]
    rw [e1, e2]
  rw [hset]
  have hfc : s.markers.filter (fun m =>
      !(List.contains [R.endMarkerId, K.startMarkerId] m.id)) =
      s.markers.filter (fun m =>
        m.id != R.endMarkerId && m.id != K.startMarkerId) :=
    List.filter_congr (fun m _ => not_contains_pair _ _ m.id)
  rw [hfc]

/-- **C2, amended.**  For every store containing two distinct spans
`K` (keep) and `R` (remove) on the same tier and video whose four anchor
markers exist and carry pairwise distinct ids, where each span is
chronologically oriented (start marker not after end marker), the two
effective intervals are separated (`K` ends at or before `R` starts, or `R`
ends strictly before `K` starts), and the merged interval
`[min(starts), max(ends))` does not intersect any third span on that tier
and video: `mergeSpans` returns `true`, the removed span is gone, the kept
span's anchors are the outermost marker pair of the merged interval (their
times are the merged minimum and maximum), the two inner boundary markers
are deleted from the markers list, and the kept gloss is the two glosses
joined by `" + "` with empty glosses skipped.  (The original claim fails
without the orientation and separation hypotheses: the commit step picks
anchors by span-field position, not by time.) -/
theorem claim_C2_amended (s : AnnotationState) (keepId removeId : String)
    (K R : AnnotationSpan) (kS kE rS rE : Marker)
    (hK : findSpan s.spans keepId = some K)
    (hR : findSpan s.spans removeId = some R)
    (hne : keepId ≠ removeId)
    (ht : K.tierId = R.tierId) (hv : K.videoId = R.videoId)
    (h1 : findMarker s.markers K.startMarkerId = some kS)
    (h2 : findMarker s.markers K.endMarkerId = some kE)
    (h3 : findMarker s.markers R.startMarkerId = some rS)
    (h4 : findMarker s.markers R.endMarkerId = some rE)
    (d12 : K.startMarkerId ≠ K.endMarkerId)
    (d13 : K.startMarkerId ≠ R.startMarkerId)
    (d14 : K.startMarkerId ≠ R.endMarkerId)
    (d23 : K.endMarkerId ≠ R.startMarkerId)
    (d24 : K.endMarkerId ≠ R.endMarkerId)
    (d34 : R.startMarkerId ≠ R.endMarkerId)
    (hok : kS.time ≤ kE.time) (hor : rS.time ≤ rE.time)
    (hsep : kE.time ≤ rS.time ∨ rE.time < kS.time)
    (hthird : ∀ sp ∈ s.spans, sp.id ≠ keepId → sp.id ≠ removeId →
      sp.tierId = K.tierId → sp.videoId = K.videoId →
      intervalsHit (effInterval s.markers sp)
        (some (min kS.time rS.time, max kE.time rE.time)) = false) :
    (mergeSpans keepId removeId s).1 = true ∧
    (∀ q ∈ (mergeSpans keepId removeId s).2.spans, q.id ≠ removeId) ∧
    (∃ fs fe iA iB,
      ((kE.time ≤ rS.time ∧ fs = K.startMarkerId ∧ fe = R.endMarkerId ∧
        iA = K.endMarkerId ∧ iB = R.startMarkerId) ∨
       (rE.time < kS.time ∧ fs = R.startMarkerId ∧ fe = K.endMarkerId ∧
        iA = R.endMarkerId ∧ iB = K.startMarkerId)) ∧
      (mergeSpans keepId removeId s).2.spans =
        (s.spans.filter (fun q => q.id != removeId)).map (fun q =>
          if q.id == keepId then
            { q with startMarkerId := fs, endMarkerId := fe,
                     gloss := combineGlosses K.gloss R.gloss }
          else q) ∧
      (mergeSpans keepId removeId s).2.markers =
        s.markers.filter (fun m => m.id != iA && m.id != iB) ∧
      findSpan (mergeSpans keepId removeId s).2.spans keepId =
        some { K with startMarkerId := fs, endMarkerId := fe,
                      gloss := combineGlosses K.gloss R.gloss } ∧
      (∃ ms, findMarker (mergeSpans keepId removeId s).2.markers fs =
        some ms ∧ ms.time = min kS.time rS.time) ∧
      (∃ me, findMarker (mergeSpans keepId removeId s).2.markers fe =
        some me ∧ me.time = max kE.time rE.time)) := by
  have hminK : min kS.time kE.time = kS.time := min_eq_left hok
  have hmaxK : max kS.time kE.time = kE.time := max_eq_right hok
  have hminR : min rS.time rE.time = rS.time := min_eq_left hor
  have hmaxR : max rS.time rE.time = rE.time := max_eq_right hor
  have hthird' : mergeOverlapsThird s keepId removeId K
      (min (min kS.time kE.time) (min rS.time rE.time))
      (max (max kS.time kE.time) (max rS.time rE.time)) = false := by
    rw [hminK, hminR, hmaxK, hmaxR]
    exact (mergeOverlapsThird_eq_false_iff s keepId removeId K _ _).mpr hthird
  have hres := mergeSpans_success s keepId removeId K R kS kE rS rE hK hR
    ht hv h1 h2 h3 h4 hthird'
  have hKid : (K.id == keepId) = true := by
    have h := hK
    unfold findSpan at h
    exact @List.find?_some AnnotationSpan (fun sp => sp.id == keepId) K
      s.spans h
  rcases hsep with hsepL | hsepR
  · -- the keep span lies entirely at or before the remove span
    have hkf : decide (min kS.time kE.time ≤ min rS.time rE.time) = true := by
      rw [hminK, hminR]
      exact decide_eq_true (le_trans hok hsepL)
    have hcommit := mergeCommit_keepFirst s keepId removeId K R kS kE rS rE
      hkf d23 (Ne.symm d12) d24 (Ne.symm d13) d34
    refine ⟨by rw [hres], ?_, K.startMarkerId, R.endMarkerId, K.endMarkerId,
      R.startMarkerId, Or.inl ⟨hsepL, rfl, rfl, rfl, rfl⟩, ?_, ?_, ?_, ?_, ?_⟩
    · intro q hq
      rw [hres, hcommit] at hq
      rcases List.mem_map.mp hq with ⟨q0, hq0, rfl⟩
      rcases List.mem_filter.mp hq0 with ⟨-, hne0⟩
      have hne0' : q0.id ≠ removeId := by simpa using hne0
      by_cases hgk : (q0.id == keepId) = true <;> simp [hgk] <;> exact hne0'
    · rw [hres, hcommit]
    · rw [hres, hcommit]
    · rw [hres, hcommit]
      unfold findSpan
      rw [find?_map_of_pred _ _ _ (fun a => by
        by_cases h : (a.id == keepId) = true <;> simp [h])]
      rw [find?_filter_of_imp _ _ _ (fun a ha => by
        have : a.id = keepId := by simpa using ha
        simp [this, hne])]
      rw [show s.spans.find? (fun sp => sp.id == keepId) = some K from hK]
      simp only [Option.map_some']
      rw [if_pos hKid]
    · refine ⟨kS, ?_, ?_⟩
      · rw [hres, hcommit]
        rw [findMarker_filter_not_removed _ _ _ (fun m hm => by
          simp [hm, d12, d13])]
        exact h1
      · rw [min_eq_left (le_trans hok hsepL)]
    · refine ⟨rE, ?_, ?_⟩
      · rw [hres, hcommit]
        rw [findMarker_filter_not_removed _ _ _ (fun m hm => by
          simp [hm, Ne.symm d24, Ne.symm d34])]
        exact h4
      · rw [max_eq_right (le_trans hsepL hor)]
  · -- the remove span lies entirely strictly before the keep span
    have hkf : decide (min kS.time kE.time ≤ min rS.time rE.time) = false := by
      rw [hminK, hminR]
      exact decide_eq_false (not_le.mpr (lt_of_le_of_lt hor hsepR))
    have hcommit := mergeCommit_removeFirst s keepId removeId K R kS kE rS rE
      hkf (Ne.symm d14) (Ne.symm d34) (Ne.symm d24) d13 d12
    refine ⟨by rw [hres], ?_, R.startMarkerId, K.endMarkerId, R.endMarkerId,
      K.startMarkerId, Or.inr ⟨hsepR, rfl, rfl, rfl, rfl⟩, ?_, ?_, ?_, ?_, ?_⟩
    · intro q hq
      rw [hres, hcommit] at hq
      rcases List.mem_map.mp hq with ⟨q0, hq0, rfl⟩
      rcases List.mem_filter.mp hq0 with ⟨-, hne0⟩
      have hne0' : q0.id ≠ removeId := by simpa using hne0
      by_cases hgk : (q0.id == keepId) = true <;> simp [hgk] <;> exact hne0'
    · rw [hres, hcommit]
    · rw [hres, hcommit]
    · rw [hres, hcommit]
      unfold findSpan
      rw [find?_map_of_pred _ _ _ (fun a => by
        by_cases h : (a.id == keepId) = true <;> simp [h])]
      rw [find?_filter_of_imp _ _ _ (fun a ha => by
        have : a.id = keepId := by simpa using ha
        simp [this, hne])]
      rw [show s.spans.find? (fun sp => sp.id == keepId) = some K from hK]
      simp only [Option.map_some']
      rw [if_pos hKid]
    · refine ⟨rS, ?_, ?_⟩
      · rw [hres, hcommit]
        rw [findMarker_filter_not_removed _ _ _ (fun m hm => by
          simp [hm, d34, Ne.symm d13])]
        exact h3
      · rw [min_eq_right (le_of_lt (lt_of_le_of_lt hor hsepR))]
    · refine ⟨kE, ?_, ?_⟩
      · rw [hres, hcommit]
        rw [findMarker_filter_not_removed _ _ _ (fun m hm => by
          simp [hm, d24, Ne.symm d12])]
        exact h2
      · rw [max_eq_left (le_of_lt (lt_of_lt_of_le hsepR hok))]

/-- **C2, counterexample.**  Merging the reversed span `A` (effective
interval `[0,1000]`, start marker at 1000, end marker at 0) with
`B = [2000,3000]` succeeds, but the kept span's anchors are **not** the
outermost marker pair of the merged interval `[0,3000]`: the commit step
picks `A`'s `startMarkerId` field (`m1`, at 1000 ms) as the final start
anchor and deletes the marker `m2` that sits at the merged minimum 0 ms,
so every start anchor the kept span could resolve has time 1000 ≠ 0. -/
theorem claim_C2_counterexample :
    (mergeSpans "A" "B" c2RevStore).1 = true ∧
    ((mergeSpans "A" "B" c2RevStore).2.spans.find?
      (fun q => q.id == "A")).isSome = true ∧
    (∀ q ∈ (mergeSpans "A" "B" c2RevStore).2.spans, q.id = "A" →
      ∀ m ∈ (mergeSpans "A" "B" c2RevStore).2.markers,
        m.id = q.startMarkerId → m.time ≠ 0) ∧
    findMarker (mergeSpans "A" "B" c2RevStore).2.markers "m2" = none := by
  refine ⟨by decide, by decide, by decide, by decide⟩

/-- Witness for the amended C2 at the spec's example. -/
theorem claim_C2_witness :
    (mergeSpans "A" "B" c2Store).1 = true ∧
    (∀ q ∈ (mergeSpans "A" "B" c2Store).2.spans, q.id ≠ "B") ∧
    (∃ fs fe iA iB,
      (((1000 : Int) ≤ 1000 ∧ fs = "m1" ∧ fe = "m4" ∧
        iA = "m2" ∧ iB = "m3") ∨
       ((2000 : Int) < 0 ∧ fs = "m3" ∧ fe = "m2" ∧
        iA = "m4" ∧ iB = "m1")) ∧
      (mergeSpans "A" "B" c2Store).2.spans =
        (c2Store.spans.filter (fun q => q.id != "B")).map (fun q =>
          if q.id == "A" then
            { q with startMarkerId := fs, endMarkerId := fe,
                     gloss := combineGlosses "HELLO" "WORLD" }
          else q) ∧
      (mergeSpans "A" "B" c2Store).2.markers =
        c2Store.markers.filter (fun m => m.id != iA && m.id != iB) ∧
      findSpan (mergeSpans "A" "B" c2Store).2.spans "A" =
        some { id := "A", startMarkerId := fs, endMarkerId := fe,
               tierId := "t", videoId := "v",
               gloss := combineGlosses "HELLO" "WORLD" } ∧
      (∃ ms, findMarker (mergeSpans "A" "B" c2Store).2.markers fs =
        some ms ∧ ms.time = min (0 : Int) 1000) ∧
      (∃ me, findMarker (mergeSpans "A" "B" c2Store).2.markers fe =
        some me ∧ me.time = max (1000 : Int) 2000)) :=
  claim_C2_amended c2Store "A" "B"
    { id := "A", startMarkerId := "m1", endMarkerId := "m2", tierId := "t",
      videoId := "v", gloss := "HELLO" }
    { id := "B", startMarkerId := "m3", endMarkerId := "m4", tierId := "t",
      videoId := "v", gloss := "WORLD" }
    { id := "m1", time := 0, typeId := "x", tierId := "t", videoId := "v",
      confirmed := true }
    { id := "m2", time := 1000, typeId := "x", tierId := "t", videoId := "v",
      confirmed := true }
    { id := "m3", time := 1000, typeId := "x", tierId := "t", videoId := "v",
      confirmed := true }
    { id := "m4", time := 2000, typeId := "x", tierId := "t", videoId := "v",
      confirmed := true }
    (by decide) (by decide) (by decide) (by decide) (by decide) (by decide)
    (by decide) (by decide) (by decide) (by decide) (by decide) (by decide)
    (by decide) (by decide) (by decide) (by decide) (by decide)
    (Or.inl (by decide)) (by decide)

/-!
## C1: preservation of the no-overlap invariant
-/

theorem intervalsHit_none_left (o : Option (Int × Int)) :
    intervalsHit none o = false := by
  cases o <;> rfl

theorem intervalsHit_none_right (o : Option (Int × Int)) :
    intervalsHit o none = false := by
  rcases o with _ | ⟨a, b⟩ <;> rfl

/-- `findMarker` through a filter whose predicate depends only on the id. -/
theorem findMarker_filter_by_id (markers : List Marker) (q : String → Bool)
    (x : String) :
    findMarker (markers.filter (fun m => q m.id)) x =
      (if q x = true then findMarker markers x else none) := by
  by_cases hq : q x = true
  · rw [if_pos hq]
    exact findMarker_filter_not_removed _ _ _ (fun m hm => by rw [hm]; exact hq)
  · rw [if_neg hq]
    exact findMarker_filter_removed _ _ _
      (fun m hm => by rw [hm]; simpa using hq)

/-- With pairwise distinct span ids, a member carrying the searched id is
the span `find?` returns. -/
theorem span_eq_of_find?_of_nodup (l : List AnnotationSpan) (k : String)
    (K : AnnotationSpan) (hK : l.find? (fun sp => sp.id == k) = some K)
    (x : AnnotationSpan) (hx : x ∈ l) (hid : x.id = k)
    (hnd : (l.map (fun sp => sp.id)).Nodup) : x = K := by
  induction l with
  | nil => cases hx
  | cons h t ih =>
    rw [List.map_cons, List.nodup_cons] at hnd
    cases hhk : (h.id == k)
    · rw [List.find?_cons, hhk] at hK
      rcases List.mem_cons.mp hx with rfl | hx'
      · rw [hid] at hhk; simp at hhk
      · exact ih hK hx' hnd.2
    · rw [List.find?_cons, hhk] at hK
      have hK' : h = K := by simpa using hK
      rcases List.mem_cons.mp hx with rfl | hx'
      · exact hK'
      · exfalso
        have hhid : h.id = k := by simpa using hhk
        exact hnd.1 (by
          rw [hhid, ← hid]
          exact List.mem_map_of_mem _ hx')


/-- `addSpan` preserves the no-overlap invariant. -/
theorem addSpan_preserves_noOverlap (s : AnnotationState) (newId : String)
    (inp : SpanInput) (h : NoOverlap s) : NoOverlap (addSpan newId inp s) := by
  unfold addSpan
  cases ha : findMarker s.markers inp.startMarkerId with
  | none => exact h
  | some a =>
    cases hb : findMarker s.markers inp.endMarkerId with
    | none => exact h
    | some b =>
      dsimp only
      cases hov : addSpanOverlapping s inp (min a.time b.time)
          (max a.time b.time)
      · simp only [Bool.false_eq_true, if_false]
        unfold NoOverlap at h ⊢
        dsimp only
        rw [List.pairwise_append]
        refine ⟨h, by simp, ?_⟩
        intro x hx nw hnw
        obtain rfl := List.mem_singleton.mp hnw
        intro htier hvid
        have hpred := List.any_eq_false.mp hov x hx
        simp only [Bool.not_eq_true] at hpred
        have hguard : (x.tierId != inp.tierId || x.videoId != inp.videoId) =
            false := by
          simp only at htier hvid
          simp [htier, hvid]
        rw [hguard] at hpred
        simp only [Bool.false_eq_true, if_false] at hpred
        have heffnw : effInterval s.markers
            ⟨newId, inp.startMarkerId, inp.endMarkerId, inp.tierId,
              inp.videoId, inp.gloss⟩ =
            some (min a.time b.time, max a.time b.time) := by
          unfold effInterval
          dsimp only
          rw [ha, hb]
        rw [heffnw]
        cases hxa : findMarker s.markers x.startMarkerId with
        | none =>
          unfold effInterval
          rw [hxa]
          exact intervalsHit_none_left _
        | some xa =>
          cases hxb : findMarker s.markers x.endMarkerId with
          | none =>
            unfold effInterval
            rw [hxa, hxb]
            rfl
          | some xb =>
            unfold effInterval
            rw [hxa, hxb]
            rw [hxa, hxb] at hpred
            simp only [intervalsHit, Bool.and_eq_false_iff] at hpred ⊢
            rcases hpred with h' | h'
            · exact Or.inr h'
            · exact Or.inl h'
      · rw [if_pos rfl]
        exact h

/-- `addSpan` with a fresh generated id preserves distinctness of span
ids. -/
theorem addSpan_preserves_nodup (s : AnnotationState) (newId : String)
    (inp : SpanInput) (hfresh : ∀ sp ∈ s.spans, sp.id ≠ newId)
    (h : SpanIdsNodup s) : SpanIdsNodup (addSpan newId inp s) := by
  unfold addSpan
  cases ha : findMarker s.markers inp.startMarkerId with
  | none => exact h
  | some a =>
    cases hb : findMarker s.markers inp.endMarkerId with
    | none => exact h
    | some b =>
      dsimp only
      cases hov : addSpanOverlapping s inp (min a.time b.time)
          (max a.time b.time)
      · simp only [Bool.false_eq_true, if_false]
        unfold SpanIdsNodup at h ⊢
        dsimp only
        rw [List.map_append, List.nodup_append]
        refine ⟨h, by simp, ?_⟩
        intro y hy
        rcases List.mem_map.mp hy with ⟨sp, hsp, rfl⟩
        simp only [List.map_cons, List.map_nil, List.mem_cons,
          List.not_mem_nil, or_false]
        intro heq
        exact hfresh sp hsp heq
      · rw [if_pos rfl]
        exact h

theorem mergeCommit_eq (s : AnnotationState) (k r : String)
    (K R : AnnotationSpan) (kS kE rS rE : Marker) :
    mergeCommit s k r K R kS kE rS rE =
      { s with
        markers := s.markers.filter (fun m =>
          !((mergeRemovedIds K R kS kE rS rE).contains m.id)),
        spans := (s.spans.filter (fun sp => sp.id != r)).map (fun sp =>
          if sp.id == k then
            { sp with startMarkerId := mergeFinalStart K R kS kE rS rE,
                      endMarkerId := mergeFinalEnd K R kS kE rS rE,
                      gloss := combineGlosses K.gloss R.gloss }
          else sp),
        selectedSpanId := some k,
        selectedMarkerId := none } := by
  unfold mergeCommit mergeFinalStart mergeFinalEnd mergeRemovedIds
  rfl

/-- A final anchor id is never in the deletion set. -/
theorem mergeRemovedIds_not_final (K R : AnnotationSpan)
    (kS kE rS rE : Marker) :
    (mergeRemovedIds K R kS kE rS rE).contains
      (mergeFinalStart K R kS kE rS rE) = false ∧
    (mergeRemovedIds K R kS kE rS rE).contains
      (mergeFinalEnd K R kS kE rS rE) = false := by
  constructor
  · cases hc : (mergeRemovedIds K R kS kE rS rE).contains
      (mergeFinalStart K R kS kE rS rE)
    · rfl
    · exfalso
      have hm : mergeFinalStart K R kS kE rS rE ∈
          mergeRemovedIds K R kS kE rS rE := by simpa using hc
      unfold mergeRemovedIds at hm
      rcases List.mem_filter.mp hm with ⟨-, hp⟩
      simp at hp
  · cases hc : (mergeRemovedIds K R kS kE rS rE).contains
      (mergeFinalEnd K R kS kE rS rE)
    · rfl
    · exfalso
      have hm : mergeFinalEnd K R kS kE rS rE ∈
          mergeRemovedIds K R kS kE rS rE := by simpa using hc
      unfold mergeRemovedIds at hm
      rcases List.mem_filter.mp hm with ⟨-, hp⟩
      simp at hp

/-- `findMarker` in the commit state's marker list. -/
theorem findMarker_removed_filter (markers : List Marker) (ids : List String)
    (x : String) :
    findMarker (markers.filter (fun m => !(ids.contains m.id))) x =
      (if ids.contains x = true then none else findMarker markers x) := by
  have h := findMarker_filter_by_id markers (fun i => !(ids.contains i)) x
  by_cases hc : ids.contains x = true
  · rw [if_pos hc]
    rw [h, if_neg (by rw [hc]; simp)]
  · rw [if_neg hc]
    simp only [Bool.not_eq_true] at hc
    rw [h, if_pos (by rw [hc]; rfl)]

/-- An effective interval computed in the commit state is the same interval
in the pre-state. -/
theorem eff_of_eff_removed_filter (markers : List Marker) (ids : List String)
    (sp : AnnotationSpan) (p : Int × Int)
    (h : effInterval (markers.filter (fun m => !(ids.contains m.id))) sp =
      some p) :
    effInterval markers sp = some p := by
  unfold effInterval at h ⊢
  cases ha : findMarker (markers.filter (fun m => !(ids.contains m.id)))
      sp.startMarkerId with
  | none => rw [ha] at h; cases h
  | some a =>
    cases hb : findMarker (markers.filter (fun m => !(ids.contains m.id)))
        sp.endMarkerId with
    | none => rw [ha, hb] at h; cases h
    | some b =>
      rw [ha, hb] at h
      rw [findMarker_removed_filter] at ha hb
      by_cases hca : ids.contains sp.startMarkerId = true
      · rw [if_pos hca] at ha; cases ha
      · by_cases hcb : ids.contains sp.endMarkerId = true
        · rw [if_pos hcb] at hb; cases hb
        · rw [if_neg hca] at ha
          rw [if_neg hcb] at hb
          rw [ha, hb]
          exact h

/-- Distinct span ids, as a pairwise relation. -/
theorem pairwise_ne_of_nodup (s : AnnotationState) (h : SpanIdsNodup s) :
    s.spans.Pairwise (fun a b => a.id ≠ b.id) := by
  unfold SpanIdsNodup List.Nodup at h
  rw [List.pairwise_map] at h
  exact h

/-- The final anchors resolve to markers whose times lie inside the merged
interval. -/
theorem mergeFinal_marker_facts (s : AnnotationState)
    (K R : AnnotationSpan) (kS kE rS rE : Marker)
    (h1 : findMarker s.markers K.startMarkerId = some kS)
    (h2 : findMarker s.markers K.endMarkerId = some kE)
    (h3 : findMarker s.markers R.startMarkerId = some rS)
    (h4 : findMarker s.markers R.endMarkerId = some rE) :
    ∃ msM meM,
      findMarker s.markers (mergeFinalStart K R kS kE rS rE) = some msM ∧
      findMarker s.markers (mergeFinalEnd K R kS kE rS rE) = some meM ∧
      min (min kS.time kE.time) (min rS.time rE.time) ≤ msM.time ∧
      msM.time ≤ max (max kS.time kE.time) (max rS.time rE.time) ∧
      min (min kS.time kE.time) (min rS.time rE.time) ≤ meM.time ∧
      meM.time ≤ max (max kS.time kE.time) (max rS.time rE.time) := by
  unfold mergeFinalStart mergeFinalEnd
  cases hkf : decide (min kS.time kE.time ≤ min rS.time rE.time)
  · simp only [Bool.false_eq_true, if_false]
    refine ⟨rS, kE, h3, h2, ?_, ?_, ?_, ?_⟩
    · exact le_trans (min_le_right _ _) (min_le_left _ _)
    · exact le_trans (le_max_left _ _) (le_max_right _ _)
    · exact le_trans (min_le_left _ _) (min_le_right _ _)
    · exact le_trans (le_max_right _ _) (le_max_left _ _)
  · simp only [if_true]
    refine ⟨kS, rE, h1, h4, ?_, ?_, ?_, ?_⟩
    · exact le_trans (min_le_left _ _) (min_le_left _ _)
    · exact le_trans (le_max_left _ _) (le_max_left _ _)
    · exact le_trans (min_le_right _ _) (min_le_right _ _)
    · exact le_trans (le_max_right _ _) (le_max_right _ _)

/-- The commit step of a validated merge preserves the no-overlap
invariant. -/
theorem mergeCommit_preserves_noOverlap (s : AnnotationState) (k r : String)
    (K R : AnnotationSpan) (kS kE rS rE : Marker)
    (hK : findSpan s.spans k = some K)
    (h1 : findMarker s.markers K.startMarkerId = some kS)
    (h2 : findMarker s.markers K.endMarkerId = some kE)
    (h3 : findMarker s.markers R.startMarkerId = some rS)
    (h4 : findMarker s.markers R.endMarkerId = some rE)
    (hthird : mergeOverlapsThird s k r K
      (min (min kS.time kE.time) (min rS.time rE.time))
      (max (max kS.time kE.time) (max rS.time rE.time)) = false)
    (hno : NoOverlap s) (hnd : SpanIdsNodup s) :
    NoOverlap (mergeCommit s k r K R kS kE rS rE) := by
  have hKid : (K.id == k) = true := by
    unfold findSpan at hK
    exact @List.find?_some AnnotationSpan (fun sp => sp.id == k) K s.spans hK
  obtain ⟨msM, meM, hfsF, hfeF, hms_lb, hms_ub, hme_lb, hme_ub⟩ :=
    mergeFinal_marker_facts s K R kS kE rS rE h1 h2 h3 h4
  have hsem := (mergeOverlapsThird_eq_false_iff s k r K _ _).mp hthird
  obtain ⟨hnc1, hnc2⟩ := mergeRemovedIds_not_final K R kS kE rS rE
  rw [mergeCommit_eq]
  unfold NoOverlap
  dsimp only
  rw [List.pairwise_map]
  have hpw := List.Pairwise.filter (fun sp => sp.id != r)
    (List.Pairwise.and hno (pairwise_ne_of_nodup s hnd))
  refine List.Pairwise.imp_of_mem ?_ hpw
  intro a b ha hb hab
  obtain ⟨hR0, hneq⟩ := hab
  have haS : a ∈ s.spans := (List.mem_filter.mp ha).1
  have hbS : b ∈ s.spans := (List.mem_filter.mp hb).1
  have har : a.id ≠ r := by
    have := (List.mem_filter.mp ha).2; simpa using this
  have hbr : b.id ≠ r := by
    have := (List.mem_filter.mp hb).2; simpa using this
  have heffgK : effInterval
      (s.markers.filter (fun m =>
        !((mergeRemovedIds K R kS kE rS rE).contains m.id)))
      { K with startMarkerId := mergeFinalStart K R kS kE rS rE,
               endMarkerId := mergeFinalEnd K R kS kE rS rE,
               gloss := combineGlosses K.gloss R.gloss } =
      some (min msM.time meM.time, max msM.time meM.time) := by
    unfold effInterval
    dsimp only
    rw [findMarker_removed_filter, findMarker_removed_filter]
    rw [if_neg (by rw [hnc1]; simp), if_neg (by rw [hnc2]; simp)]
    rw [hfsF, hfeF]
  by_cases hak : a.id = k
  · have haK : a = K := span_eq_of_find?_of_nodup s.spans k K
      (by unfold findSpan at hK; exact hK) a haS hak hnd
    by_cases hbk : b.id = k
    · exact absurd (hak.trans hbk.symm) hneq
    · have hbkF : ¬((b.id == k) = true) := by simp [hbk]
      rw [haK]
      rw [if_pos hKid, if_neg hbkF]
      intro htier hvid
      cases heb : effInterval
          (s.markers.filter (fun m =>
            !((mergeRemovedIds K R kS kE rS rE).contains m.id))) b with
      | none =>
        rw [heffgK]
        exact intervalsHit_none_right _
      | some pb =>
        rcases pb with ⟨pb1, pb2⟩
        have hebS := eff_of_eff_removed_filter s.markers _ b _ heb
        have hbsem := hsem b hbS hbk hbr
          (show b.tierId = K.tierId from htier.symm)
          (show b.videoId = K.videoId from hvid.symm)
        rw [hebS] at hbsem
        rw [heffgK]
        simp only [intervalsHit, Bool.and_eq_false_iff,
          decide_eq_false_iff_not, not_lt] at hbsem ⊢
        rcases hbsem with hge | hle
        · exact Or.inr (le_trans (max_le hms_ub hme_ub) hge)
        · exact Or.inl (le_trans hle (le_min hms_lb hme_lb))
  · by_cases hbk : b.id = k
    · have hbK : b = K := span_eq_of_find?_of_nodup s.spans k K
        (by unfold findSpan at hK; exact hK) b hbS hbk hnd
      have hakF : ¬((a.id == k) = true) := by simp [hak]
      rw [hbK]
      rw [if_neg hakF, if_pos hKid]
      intro htier hvid
      cases hea : effInterval
          (s.markers.filter (fun m =>
            !((mergeRemovedIds K R kS kE rS rE).contains m.id))) a with
      | none =>
        rw [heffgK]
        exact intervalsHit_none_left _
      | some pa =>
        rcases pa with ⟨pa1, pa2⟩
        have heaS := eff_of_eff_removed_filter s.markers _ a _ hea
        have hasem := hsem a haS hak har
          (show a.tierId = K.tierId from htier)
          (show a.videoId = K.videoId from hvid)
        rw [heaS] at hasem
        rw [heffgK]
        simp only [intervalsHit, Bool.and_eq_false_iff,
          decide_eq_false_iff_not, not_lt] at hasem ⊢
        rcases hasem with hge | hle
        · exact Or.inl (le_trans (max_le hms_ub hme_ub) hge)
        · exact Or.inr (le_trans hle (le_min hms_lb hme_lb))
    · have hakF : ¬((a.id == k) = true) := by simp [hak]
      have hbkF : ¬((b.id == k) = true) := by simp [hbk]
      rw [if_neg hakF, if_neg hbkF]
      intro htier hvid
      cases hea : effInterval
          (s.markers.filter (fun m =>
            !((mergeRemovedIds K R kS kE rS rE).contains m.id))) a with
      | none => exact intervalsHit_none_left _
      | some pa =>
        cases heb : effInterval
            (s.markers.filter (fun m =>
              !((mergeRemovedIds K R kS kE rS rE).contains m.id))) b with
        | none => exact intervalsHit_none_right _
        | some pb =>
          have heaS := eff_of_eff_removed_filter s.markers _ a _ hea
          have hebS := eff_of_eff_removed_filter s.markers _ b _ heb
          have hfin := hR0 htier hvid
          rw [heaS, hebS] at hfin
          exact hfin

/-- The commit step preserves distinctness of span ids. -/
theorem mergeCommit_preserves_nodup (s : AnnotationState) (k r : String)
    (K R : AnnotationSpan) (kS kE rS rE : Marker) (hnd : SpanIdsNodup s) :
    SpanIdsNodup (mergeCommit s k r K R kS kE rS rE) := by
  rw [mergeCommit_eq]
  unfold SpanIdsNodup at hnd ⊢
  dsimp only
  rw [List.map_map]
  have hmap : (s.spans.filter (fun sp => sp.id != r)).map
      ((fun sp => sp.id) ∘ (fun sp =>
        if sp.id == k then
          { sp with startMarkerId := mergeFinalStart K R kS kE rS rE,
                    endMarkerId := mergeFinalEnd K R kS kE rS rE,
                    gloss := combineGlosses K.gloss R.gloss }
        else sp)) =
      (s.spans.filter (fun sp => sp.id != r)).map (fun sp => sp.id) := by
    apply List.map_congr_left
    intro q hq
    by_cases h : (q.id == k) = true <;> simp [Function.comp, h]
  rw [hmap]
  exact List.Nodup.sublist
    (List.Sublist.map _ (List.filter_sublist s.spans)) hnd

/-- Case analysis of `mergeSpans`: either the state is unchanged, or the
validated commit ran. -/
theorem mergeSpans_snd_cases (s : AnnotationState) (k r : String) :
    (mergeSpans k r s).2 = s ∨
    ∃ K R kS kE rS rE,
      findSpan s.spans k = some K ∧ findSpan s.spans r = some R ∧
      findMarker s.markers K.startMarkerId = some kS ∧
      findMarker s.markers K.endMarkerId = some kE ∧
      findMarker s.markers R.startMarkerId = some rS ∧
      findMarker s.markers R.endMarkerId = some rE ∧
      mergeOverlapsThird s k r K
        (min (min kS.time kE.time) (min rS.time rE.time))
        (max (max kS.time kE.time) (max rS.time rE.time)) = false ∧
      (mergeSpans k r s).2 = mergeCommit s k r K R kS kE rS rE := by
  cases hK : findSpan s.spans k with
  | none => exact Or.inl (by rw [mergeSpans_keep_missing s k r hK])
  | some K =>
    cases hR : findSpan s.spans r with
    | none => exact Or.inl (by rw [mergeSpans_remove_missing s k r hR])
    | some R =>
      by_cases htv : K.tierId = R.tierId ∧ K.videoId = R.videoId
      · cases h1 : findMarker s.markers K.startMarkerId with
        | none => exact Or.inl (by
            rw [mergeSpans_marker_missing s k r K R hK hR (Or.inl h1)])
        | some kS =>
          cases h2 : findMarker s.markers K.endMarkerId with
          | none => exact Or.inl (by
              rw [mergeSpans_marker_missing s k r K R hK hR
                (Or.inr (Or.inl h2))])
          | some kE =>
            cases h3 : findMarker s.markers R.startMarkerId with
            | none => exact Or.inl (by
                rw [mergeSpans_marker_missing s k r K R hK hR
                  (Or.inr (Or.inr (Or.inl h3)))])
            | some rS =>
              cases h4 : findMarker s.markers R.endMarkerId with
              | none => exact Or.inl (by
                  rw [mergeSpans_marker_missing s k r K R hK hR
                    (Or.inr (Or.inr (Or.inr h4)))])
              | some rE =>
                cases h5 : mergeOverlapsThird s k r K
                    (min (min kS.time kE.time) (min rS.time rE.time))
                    (max (max kS.time kE.time) (max rS.time rE.time)) with
                | true => exact Or.inl (by
                    rw [mergeSpans_would_overlap s k r K R kS kE rS rE hK hR
                      h1 h2 h3 h4 h5])
                | false =>
                  exact Or.inr ⟨K, R, kS, kE, rS, rE, rfl, rfl, h1, h2, h3, h4,
                    h5, by
                      rw [mergeSpans_success s k r K R kS kE rS rE hK hR
                        htv.1 htv.2 h1 h2 h3 h4 h5]⟩

      · exact Or.inl (by
          rw [mergeSpans_tier_mismatch s k r K R hK hR (not_and_or.mp htv)])

/-- `mergeSpans` preserves the no-overlap invariant and span-id
distinctness. -/
theorem mergeSpans_preserves_inv (s : AnnotationState) (k r : String)
    (hno : NoOverlap s) (hnd : SpanIdsNodup s) :
    NoOverlap (mergeSpans k r s).2 ∧ SpanIdsNodup (mergeSpans k r s).2 := by
  rcases mergeSpans_snd_cases s k r with heq |
    ⟨K, R, kS, kE, rS, rE, hK, hR, h1, h2, h3, h4, h5, heq⟩
  · rw [heq]; exact ⟨hno, hnd⟩
  · rw [heq]
    exact ⟨mergeCommit_preserves_noOverlap s k r K R kS kE rS rE hK
        h1 h2 h3 h4 h5 hno hnd,
      mergeCommit_preserves_nodup s k r K R kS kE rS rE hnd⟩

/-- `addSpan` rejects (no-op) whenever the proposed interval intersects an
existing span with existing anchors on the same tier+video. -/
theorem addSpan_noop_of_overlap (s : AnnotationState) (newId : String)
    (inp : SpanInput) (a b : Marker)
    (ha : findMarker s.markers inp.startMarkerId = some a)
    (hb : findMarker s.markers inp.endMarkerId = some b)
    (hov : ∃ ex ∈ s.spans, ex.tierId = inp.tierId ∧ ex.videoId = inp.videoId ∧
      intervalsHit (effInterval s.markers ex)
        (some (min a.time b.time, max a.time b.time)) = true) :
    addSpan newId inp s = s := by
  unfold addSpan
  rw [ha, hb]
  dsimp only
  have hovB : addSpanOverlapping s inp (min a.time b.time)
      (max a.time b.time) = true := by
    rcases hov with ⟨ex, hmem, htier, hvid, hhit⟩
    apply List.any_eq_true.mpr
    refine ⟨ex, hmem, ?_⟩
    have hguard : (ex.tierId != inp.tierId || ex.videoId != inp.videoId) =
        false := by simp [htier, hvid]
    rw [hguard]
    simp only [Bool.false_eq_true, if_false]
    unfold effInterval at hhit
    cases hxa : findMarker s.markers ex.startMarkerId with
    | none => rw [hxa] at hhit; simp [intervalsHit] at hhit
    | some xa =>
      cases hxb : findMarker s.markers ex.endMarkerId with
      | none => rw [hxa, hxb] at hhit; simp [intervalsHit] at hhit
      | some xb =>
        rw [hxa, hxb] at hhit
        simp only [intervalsHit, Bool.and_eq_true, decide_eq_true_eq] at hhit
        simp [hhit.1, hhit.2]
  rw [hovB, if_pos rfl]

/-- Sequences of span operations without `clear` preserve the invariant. -/
theorem spanOps_preserve_inv (ops : List SpanOp) (s : AnnotationState)
    (hno : NoOverlap s) (hnd : SpanIdsNodup s) (hfresh : FreshAdds ops s)
    (hnc : ∀ op ∈ ops, opIsClear op = false) :
    NoOverlap (execSpanOps ops s) ∧ SpanIdsNodup (execSpanOps ops s) := by
  induction ops generalizing s with
  | nil => exact ⟨hno, hnd⟩
  | cons op rest ih =>
    rcases hfresh with ⟨hopf, hrest⟩
    have hstep : NoOverlap (applySpanOp op s) ∧
        SpanIdsNodup (applySpanOp op s) := by
      cases op with
      | add i inp =>
        exact ⟨addSpan_preserves_noOverlap s i inp hno,
          addSpan_preserves_nodup s i inp hopf hnd⟩
      | merge k r => exact mergeSpans_preserves_inv s k r hno hnd
      | clear a b t v =>
        have := hnc _ (List.mem_cons_self _ _)
        simp [opIsClear] at this
    exact ih (applySpanOp op s) hstep.1 hstep.2 hrest
      (fun o ho => hnc o (List.mem_cons_of_mem _ ho))

/-- **C1, counterexample.**  Starting from a store whose spans have pairwise
non-intersecting effective intervals on every tier and video, a single
`clearOverlappingSpans(900, 1100, t1, v)` call trims the tier-`t1` span by
moving its start marker `m2` to 1100 — but `m2` also anchors the tier-`t2`
span `B`, which then grows to `[0,1100)` and intersects `C = [1050,1500)`:
the invariant is not preserved by sequences that include
`clearOverlappingSpans`. -/
theorem claim_C1_counterexample :
    NoOverlap c1Store ∧ SpanIdsNodup c1Store ∧
    ¬ NoOverlap (execSpanOps [.clear 900 1100 "t1" "v"] c1Store) := by
  refine ⟨by decide, by decide, by decide⟩

/-- **C1, amended.**  Starting from a store whose spans on each
`(tierId, videoId)` have pairwise non-intersecting effective half-open
intervals and pairwise distinct span ids, after any sequence of `addSpan`
and `mergeSpans` calls (with fresh generated span ids) every pair of spans
on the same tier and video whose four anchor markers exist still has
non-intersecting effective `[start, end)` intervals; and `addSpan` is a
no-op whenever the new span's effective interval intersects that of an
existing span with existing anchors on the same tier and video.
(`clearOverlappingSpans` is excluded from the sequence: by the
counterexample it can move a marker shared with a span of another tier and
break the invariant there.) -/
theorem claim_C1_amended (ops : List SpanOp) (s : AnnotationState)
    (hno : NoOverlap s) (hnd : SpanIdsNodup s) (hfresh : FreshAdds ops s)
    (hnc : ∀ op ∈ ops, opIsClear op = false) :
    (NoOverlap (execSpanOps ops s) ∧ SpanIdsNodup (execSpanOps ops s)) ∧
    (∀ (s2 : AnnotationState) (newId : String) (inp : SpanInput)
      (a b : Marker),
      findMarker s2.markers inp.startMarkerId = some a →
      findMarker s2.markers inp.endMarkerId = some b →
      (∃ ex ∈ s2.spans, ex.tierId = inp.tierId ∧ ex.videoId = inp.videoId ∧
        intervalsHit (effInterval s2.markers ex)
          (some (min a.time b.time, max a.time b.time)) = true) →
      addSpan newId inp s2 = s2) :=
  ⟨spanOps_preserve_inv ops s hno hnd hfresh hnc,
   fun s2 newId inp a b ha hb hov =>
     addSpan_noop_of_overlap s2 newId inp a b ha hb hov⟩

/-- Witness for the amended C1: add an adjacent span, merge the two, and
observe both the preserved invariant and the rejection of an overlapping
`addSpan`. -/
theorem claim_C1_witness :
    FreshAdds c1OpsW c1StoreW ∧
    (NoOverlap (execSpanOps c1OpsW c1StoreW) ∧
      SpanIdsNodup (execSpanOps c1OpsW c1StoreW)) ∧
    addSpan "X" c1InpW c1OverlapStore = c1OverlapStore :=
  ⟨by decide,
   (claim_C1_amended c1OpsW c1StoreW (by decide) (by decide) (by decide)
     (by decide)).1,
   (claim_C1_amended c1OpsW c1StoreW (by decide) (by decide) (by decide)
     (by decide)).2 c1OverlapStore "X" c1InpW
     { id := "ma", time := 500, typeId := "x", tierId := "t", videoId := "v",
       confirmed := true }
     { id := "mb", time := 1500, typeId := "x", tierId := "t",
       videoId := "v", confirmed := true }
     (by decide) (by decide)
     ⟨{ id := "A", startMarkerId := "m1", endMarkerId := "m2", tierId := "t",
        videoId := "v", gloss := "a" },
      by decide, by decide, by decide, by decide⟩⟩

/-!
## C8: `confirmMarker`
-/

/-- **C8.**  For every existing marker `m` (found by id), `confirmMarker`
leaves the spans and the selection untouched, sets `m`'s type and
`confirmed` flag, and clears the pending reference exactly when it pointed
at `m`; when no span on `m`'s tier+video with existing anchors strictly
contains `m.time`, no marker's time changes; when some such span exists,
there is a containing span (the first in list order) whose end marker —
the marker referenced by its `endMarkerId` field — is moved to `m.time`,
and no other marker's time changes; if no marker carries the id, the store
is unchanged. -/
theorem claim_C8 (mId ty : String) (s : AnnotationState) :
    (findMarker s.markers mId = none → confirmMarker mId ty s = s) ∧
    (∀ m, findMarker s.markers mId = some m →
      (confirmMarker mId ty s).spans = s.spans ∧
      (confirmMarker mId ty s).selectedMarkerId = s.selectedMarkerId ∧
      (confirmMarker mId ty s).pendingMarkerId =
        (if s.pendingMarkerId = some mId then none else s.pendingMarkerId) ∧
      ((¬ ∃ sp ∈ s.spans, markerInsideSpan s m sp = true) →
        (confirmMarker mId ty s).markers = s.markers.map (fun x =>
          if x.id == mId then { x with typeId := ty, confirmed := true }
          else x)) ∧
      ((∃ sp ∈ s.spans, markerInsideSpan s m sp = true) →
        ∃ sp ∈ s.spans, markerInsideSpan s m sp = true ∧
          (confirmMarker mId ty s).markers = s.markers.map (fun x =>
            if x.id == mId then { x with typeId := ty, confirmed := true }
            else if x.id == sp.endMarkerId then { x with time := m.time }
            else x))) := by
  constructor
  · intro hnone
    unfold confirmMarker
    rw [hnone]
  · intro m hm
    have hpend : (if (s.pendingMarkerId == some mId) = true then none
        else s.pendingMarkerId) =
        (if s.pendingMarkerId = some mId then none else s.pendingMarkerId) := by
      by_cases hp : s.pendingMarkerId = some mId
      · rw [if_pos hp, if_pos (by simp [hp])]
      · rw [if_neg hp, if_neg (by simp [hp])]
    refine ⟨?_, ?_, ?_, ?_, ?_⟩
    · unfold confirmMarker
      rw [hm]
    · unfold confirmMarker
      rw [hm]
    · unfold confirmMarker
      rw [hm]
      dsimp only
      exact hpend
    · intro hno
      have hfind0 : s.spans.find? (markerInsideSpan s m) = none := by
        rw [List.find?_eq_none]
        intro sp hsp hpred
        exact hno ⟨sp, hsp, hpred⟩
      unfold confirmMarker
      rw [hm]
      dsimp only
      rw [hfind0]
      exact List.map_congr_left (fun x hx => rfl)
    · intro hyes
      have hsome : (s.spans.find? (markerInsideSpan s m)).isSome = true := by
        rw [List.find?_isSome]
        rcases hyes with ⟨sp, hsp, hpred⟩
        exact ⟨sp, hsp, hpred⟩
      cases hfind0 : s.spans.find? (markerInsideSpan s m) with
      | none => rw [hfind0] at hsome; cases hsome
      | some sp0 =>
        refine ⟨sp0, List.mem_of_find?_eq_some hfind0,
          List.find?_some hfind0, ?_⟩
        unfold confirmMarker
        rw [hm]
        dsimp only
        rw [hfind0]
        exact List.map_congr_left (fun x hx => rfl)

/-- Witness for C8: the snap case at a concrete store. -/
theorem claim_C8_witness :
    (confirmMarker "m3" "ty1" c8Store).spans = c8Store.spans ∧
    (confirmMarker "m3" "ty1" c8Store).pendingMarkerId =
      (if c8Store.pendingMarkerId = some "m3" then none
       else c8Store.pendingMarkerId) ∧
    (∃ sp ∈ c8Store.spans,
      markerInsideSpan c8Store
        { id := "m3", time := 500, typeId := "", tierId := "t",
          videoId := "v", confirmed := false } sp = true ∧
      (confirmMarker "m3" "ty1" c8Store).markers = c8Store.markers.map
        (fun x =>
          if x.id == "m3" then { x with typeId := "ty1", confirmed := true }
          else if x.id == sp.endMarkerId then { x with time := 500 }
          else x)) :=
  ⟨((claim_C8 "m3" "ty1" c8Store).2
      { id := "m3", time := 500, typeId := "", tierId := "t", videoId := "v",
        confirmed := false } (by decide)).1,
   ((claim_C8 "m3" "ty1" c8Store).2
      { id := "m3", time := 500, typeId := "", tierId := "t", videoId := "v",
        confirmed := false } (by decide)).2.2.1,
   ((claim_C8 "m3" "ty1" c8Store).2
      { id := "m3", time := 500, typeId := "", tierId := "t", videoId := "v",
        confirmed := false } (by decide)).2.2.2.2
     ⟨{ id := "A", startMarkerId := "m1", endMarkerId := "m2", tierId := "t",
        videoId := "v", gloss := "a" }, by decide, by decide⟩⟩

/-!
## C9: purity of the exporters
-/

/-- **C9, counterexample.**  `exportAnnotationsJson` writes the clock
reading (`new Date().toISOString()`) into its `exportedAt` field, so two
invocations with the same arguments but different clock readings return
different strings: the JSON exporter is not a pure function of the listed
arguments. -/
theorem claim_C9_counterexample :
    exportAnnotationsJson "2024-01-01T00:00:00.000Z" [] [] [] [] "video.mp4"
      none none ≠
    exportAnnotationsJson "2024-01-02T00:00:00.000Z" [] [] [] [] "video.mp4"
      none none := by
  decide

/-- **C9, amended.**  `exportMarkersCsv` is a pure function of its
arguments: its output is independent of the clock reading available at the
call (the source contains no clock access), so any two invocations on the
same input return identical strings.  `exportAnnotationsJson` is
deterministic only in its arguments together with the clock reading, whose
value it embeds as `exportedAt`. -/
theorem claim_C9_amended (now1 now2 : String) (markers : List Marker)
    (tiers : List Tier) (markerTypes : List MarkerType) (videoName : String)
    (annotatorId : Option String) (spans : Option (List AnnotationSpan)) :
    exportMarkersCsv now1 markers tiers markerTypes videoName annotatorId
      spans =
    exportMarkersCsv now2 markers tiers markerTypes videoName annotatorId
      spans := rfl

/-!
## C4: `clearOverlappingSpans`
-/

theorem clearStep_removeSpanIds (markers : List Marker) (startMs endMs : Int)
    (tierId videoId : String) (acc : ClearAcc) (span : AnnotationSpan) :
    (clearStep markers startMs endMs tierId videoId acc span).removeSpanIds =
      (if clearRemoves markers startMs endMs tierId videoId span = true then
        setAdd acc.removeSpanIds span.id
      else acc.removeSpanIds) := by
  unfold clearStep clearRemoves
  cases hguard : (span.tierId != tierId || span.videoId != videoId)
  · simp only [Bool.false_eq_true, if_false]
    cases h1 : findMarker markers span.startMarkerId with
    | none => rfl
    | some sM =>
      cases h2 : findMarker markers span.endMarkerId with
      | none => rfl
      | some eM =>
        dsimp only
        by_cases hskip : min sM.time eM.time ≥ endMs ∨
            max sM.time eM.time ≤ startMs
        · rw [if_pos hskip, if_pos hskip]
          all_goals rfl
        · rw [if_neg hskip, if_neg hskip]
          by_cases hcont : min sM.time eM.time ≥ startMs ∧
              max sM.time eM.time ≤ endMs
          · rw [if_pos hcont, if_pos hcont]
            all_goals rfl
          · rw [if_neg hcont, if_neg hcont]
            by_cases h3 : min sM.time eM.time < startMs ∧
                max sM.time eM.time > endMs
            · rw [if_pos h3]
              all_goals rfl
            · rw [if_neg h3]
              by_cases h4 : min sM.time eM.time < startMs
              · rw [if_pos h4]
                all_goals rfl
              · rw [if_neg h4]
                all_goals rfl
  · rw [if_pos rfl]
    all_goals rfl

theorem clearStep_removeMarkerIds (markers : List Marker)
    (startMs endMs : Int) (tierId videoId : String) (acc : ClearAcc)
    (span : AnnotationSpan) :
    (clearStep markers startMs endMs tierId videoId acc span).removeMarkerIds =
      (if clearRemoves markers startMs endMs tierId videoId span = true then
        setAdd (setAdd acc.removeMarkerIds span.startMarkerId)
          span.endMarkerId
      else acc.removeMarkerIds) := by
  unfold clearStep clearRemoves
  cases hguard : (span.tierId != tierId || span.videoId != videoId)
  · simp only [Bool.false_eq_true, if_false]
    cases h1 : findMarker markers span.startMarkerId with
    | none => rfl
    | some sM =>
      cases h2 : findMarker markers span.endMarkerId with
      | none => rfl
      | some eM =>
        dsimp only
        by_cases hskip : min sM.time eM.time ≥ endMs ∨
            max sM.time eM.time ≤ startMs
        · rw [if_pos hskip, if_pos hskip]
          all_goals rfl
        · rw [if_neg hskip, if_neg hskip]
          by_cases hcont : min sM.time eM.time ≥ startMs ∧
              max sM.time eM.time ≤ endMs
          · rw [if_pos hcont, if_pos hcont]
            all_goals rfl
          · rw [if_neg hcont, if_neg hcont]
            by_cases h3 : min sM.time eM.time < startMs ∧
                max sM.time eM.time > endMs
            · rw [if_pos h3]
              all_goals rfl
            · rw [if_neg h3]
              by_cases h4 : min sM.time eM.time < startMs
              · rw [if_pos h4]
                all_goals rfl
              · rw [if_neg h4]
                all_goals rfl
  · rw [if_pos rfl]
    all_goals rfl

theorem clearStep_markerTimeUpdates (markers : List Marker)
    (startMs endMs : Int) (tierId videoId : String) (acc : ClearAcc)
    (span : AnnotationSpan) :
    (clearStep markers startMs endMs tierId videoId acc
        span).markerTimeUpdates =
      (match clearWrite markers startMs endMs tierId videoId span with
       | some (kk, v) => mapSet acc.markerTimeUpdates kk v
       | none => acc.markerTimeUpdates) := by
  unfold clearStep clearWrite
  cases hguard : (span.tierId != tierId || span.videoId != videoId)
  · simp only [Bool.false_eq_true, if_false]
    cases h1 : findMarker markers span.startMarkerId with
    | none => rfl
    | some sM =>
      cases h2 : findMarker markers span.endMarkerId with
      | none => rfl
      | some eM =>
        dsimp only
        by_cases hskip : min sM.time eM.time ≥ endMs ∨
            max sM.time eM.time ≤ startMs
        · rw [if_pos hskip, if_pos hskip]
        · rw [if_neg hskip, if_neg hskip]
          by_cases hcont : min sM.time eM.time ≥ startMs ∧
              max sM.time eM.time ≤ endMs
          · rw [if_pos hcont, if_pos hcont]
          · rw [if_neg hcont, if_neg hcont]
            by_cases h3 : min sM.time eM.time < startMs ∧
                max sM.time eM.time > endMs
            · rw [if_pos h3, if_pos h3]
            · rw [if_neg h3, if_neg h3]
              by_cases h4 : min sM.time eM.time < startMs
              · rw [if_pos h4, if_pos h4]
              · rw [if_neg h4, if_neg h4]
  · rw [if_pos rfl]
    all_goals rfl

theorem mapLookup_replace_ne (m : List (String × Int)) (k : String) (v : Int)
    (x : String) (hx : x ≠ k) :
    mapLookup (m.map (fun p => if p.1 == k then (k, v) else p)) x =
      mapLookup m x := by
  induction m with
  | nil => rfl
  | cons p m ih =>
    unfold mapLookup at ih ⊢
    rw [List.map_cons]
    by_cases hpk : (p.1 == k) = true
    · rw [if_pos hpk]
      have hp1 : p.1 = k := by simpa using hpk
      rw [List.find?_cons, List.find?_cons]
      have h1 : (k == x) = false := by
        simp [Ne.symm hx]
      have h2 : (p.1 == x) = false := by
        rw [hp1]
        exact h1
      rw [show (((k, v) : String × Int).1 == x) = false from h1, h2]
      exact ih
    · rw [if_neg hpk]
      rw [List.find?_cons, List.find?_cons]
      cases hpx : (p.1 == x)
      · exact ih
      · rfl

theorem mapLookup_replace_eq (m : List (String × Int)) (k : String) (v : Int)
    (hany : m.any (fun p => p.1 == k) = true) :
    mapLookup (m.map (fun p => if p.1 == k then (k, v) else p)) k =
      some v := by
  induction m with
  | nil => cases hany
  | cons p m ih =>
    unfold mapLookup at ih ⊢
    rw [List.map_cons]
    by_cases hpk : (p.1 == k) = true
    · rw [if_pos hpk]
      rw [List.find?_cons]
      rw [show (((k, v) : String × Int).1 == k) = true from by simp]
      rfl
    · rw [if_neg hpk]
      rw [List.find?_cons]
      rw [show (p.1 == k) = false from by
        cases h : (p.1 == k)
        · rfl
        · exact absurd h hpk]
      apply ih
      rw [List.any_cons] at hany
      rcases Bool.or_eq_true_iff.mp hany with h | h
      · exact absurd h hpk
      · exact h

theorem mapLookup_append_single (m : List (String × Int)) (k : String)
    (v : Int) (x : String)
    (hnone : m.any (fun p => p.1 == k) = false) :
    mapLookup (m ++ [(k, v)]) x =
      (if x == k then some v else mapLookup m x) := by
  induction m with
  | nil =>
    unfold mapLookup
    rw [List.nil_append, List.find?_cons]
    by_cases hx : x = k
    · rw [if_pos (by simp [hx])]
      rw [show (((k, v) : String × Int).1 == x) = true from by simp [hx]]
      rfl
    · rw [if_neg (by simp [hx])]
      rw [show (((k, v) : String × Int).1 == x) = false from by
        simp [Ne.symm hx]]
  | cons p m ih =>
    rw [List.any_cons] at hnone
    rcases Bool.or_eq_false_iff.mp hnone with ⟨h1, h2⟩
    unfold mapLookup at ih ⊢
    rw [List.cons_append, List.find?_cons, List.find?_cons]
    cases hpx : (p.1 == x)
    · exact ih h2
    · by_cases hx : x = k
      · exfalso
        have : p.1 = x := by simpa using hpx
        rw [hx] at this
        rw [show (p.1 == k) = true from by simp [this]] at h1
        cases h1
      · rw [if_neg (by simp [hx])]

theorem mapLookup_mapSet (m : List (String × Int)) (k : String) (v : Int)
    (x : String) :
    mapLookup (mapSet m k v) x =
      (if x == k then some v else mapLookup m x) := by
  unfold mapSet
  cases hany : m.any (fun p => p.1 == k)
  · rw [if_neg (by simp)]
    exact mapLookup_append_single m k v x hany
  · rw [if_pos rfl]
    by_cases hx : x = k
    · subst hx
      rw [if_pos (by simp)]
      exact mapLookup_replace_eq m x v hany
    · rw [if_neg (by simp [hx])]
      exact mapLookup_replace_ne m k v x hx

theorem foldl_clearStep_lookup (markers : List Marker) (a b : Int)
    (tier vid : String) (spans : List AnnotationSpan) (acc : ClearAcc)
    (x : String) :
    mapLookup ((spans.foldl (clearStep markers a b tier vid)
        acc).markerTimeUpdates) x =
      (match lastWrite markers a b tier vid spans x with
       | some v => some v
       | none => mapLookup acc.markerTimeUpdates x) := by
  induction spans generalizing acc with
  | nil => rfl
  | cons sp rest ih =>
    rw [List.foldl_cons, ih]
    cases hlw : lastWrite markers a b tier vid rest x with
    | some v =>
      conv_rhs => rw [lastWrite]
      rw [hlw]
    | none =>
      conv_rhs => rw [lastWrite]
      rw [hlw]
      rw [clearStep_markerTimeUpdates]
      cases hcw : clearWrite markers a b tier vid sp with
      | none => rfl
      | some kv =>
        rcases kv with ⟨kk, v⟩
        dsimp only
        rw [mapLookup_mapSet]
        by_cases hx : x = kk
        · subst hx
          rw [if_pos (by simp), if_pos (by simp)]
        · rw [if_neg (by simp [hx]), if_neg (by simp [Ne.symm hx])]

theorem foldl_clearStep_removeSpan_mem (markers : List Marker) (a b : Int)
    (tier vid : String) (spans : List AnnotationSpan) (acc : ClearAcc)
    (x : String) :
    x ∈ (spans.foldl (clearStep markers a b tier vid) acc).removeSpanIds ↔
      x ∈ acc.removeSpanIds ∨
      ∃ sp ∈ spans, clearRemoves markers a b tier vid sp = true ∧
        sp.id = x := by
  induction spans generalizing acc with
  | nil => simp
  | cons sp rest ih =>
    rw [List.foldl_cons, ih, clearStep_removeSpanIds]
    by_cases hrem : clearRemoves markers a b tier vid sp = true
    · rw [if_pos hrem]
      rw [mem_setAdd]
      constructor
      · rintro ((h | h) | ⟨sp', hsp', hr', hid'⟩)
        · exact Or.inl h
        · exact Or.inr ⟨sp, List.mem_cons_self _ _, hrem, h.symm⟩
        · exact Or.inr ⟨sp', List.mem_cons_of_mem _ hsp', hr', hid'⟩
      · rintro (h | ⟨sp', hsp', hr', hid'⟩)
        · exact Or.inl (Or.inl h)
        · rcases List.mem_cons.mp hsp' with rfl | hsp''
          · exact Or.inl (Or.inr hid'.symm)
          · exact Or.inr ⟨sp', hsp'', hr', hid'⟩
    · rw [if_neg hrem]
      constructor
      · rintro (h | ⟨sp', hsp', hr', hid'⟩)
        · exact Or.inl h
        · exact Or.inr ⟨sp', List.mem_cons_of_mem _ hsp', hr', hid'⟩
      · rintro (h | ⟨sp', hsp', hr', hid'⟩)
        · exact Or.inl h
        · rcases List.mem_cons.mp hsp' with rfl | hsp''
          · exact absurd hr' hrem
          · exact Or.inr ⟨sp', hsp'', hr', hid'⟩

theorem foldl_clearStep_removeMarker_mem (markers : List Marker) (a b : Int)
    (tier vid : String) (spans : List AnnotationSpan) (acc : ClearAcc)
    (x : String) :
    x ∈ (spans.foldl (clearStep markers a b tier vid) acc).removeMarkerIds ↔
      x ∈ acc.removeMarkerIds ∨
      ∃ sp ∈ spans, clearRemoves markers a b tier vid sp = true ∧
        (x = sp.startMarkerId ∨ x = sp.endMarkerId) := by
  induction spans generalizing acc with
  | nil => simp
  | cons sp rest ih =>
    rw [List.foldl_cons, ih, clearStep_removeMarkerIds]
    by_cases hrem : clearRemoves markers a b tier vid sp = true
    · rw [if_pos hrem]
      rw [mem_setAdd, mem_setAdd]
      constructor
      · rintro (((h | h) | h) | ⟨sp', hsp', hr', hx'⟩)
        · exact Or.inl h
        · exact Or.inr ⟨sp, List.mem_cons_self _ _, hrem, Or.inl h⟩
        · exact Or.inr ⟨sp, List.mem_cons_self _ _, hrem, Or.inr h⟩
        · exact Or.inr ⟨sp', List.mem_cons_of_mem _ hsp', hr', hx'⟩
      · rintro (h | ⟨sp', hsp', hr', hx'⟩)
        · exact Or.inl (Or.inl (Or.inl h))
        · rcases List.mem_cons.mp hsp' with rfl | hsp''
          · rcases hx' with h | h
            · exact Or.inl (Or.inl (Or.inr h))
            · exact Or.inl (Or.inr h)
          · exact Or.inr ⟨sp', hsp'', hr', hx'⟩
    · rw [if_neg hrem]
      constructor
      · rintro (h | ⟨sp', hsp', hr', hx'⟩)
        · exact Or.inl h
        · exact Or.inr ⟨sp', List.mem_cons_of_mem _ hsp', hr', hx'⟩
      · rintro (h | ⟨sp', hsp', hr', hx'⟩)
        · exact Or.inl h
        · rcases List.mem_cons.mp hsp' with rfl | hsp''
          · exact absurd hr' hrem
          · exact Or.inr ⟨sp', hsp'', hr', hx'⟩

theorem findMarker_some_id (markers : List Marker) (x : String) (m : Marker)
    (h : findMarker markers x = some m) : m.id = x := by
  unfold findMarker at h
  have := List.find?_some h
  simpa using this

/-- A recorded trim targets one of the span's own anchors, and only spans on
the target tier and video record trims. -/
theorem clearWrite_facts (markers : List Marker) (a b : Int)
    (tier vid : String) (sp : AnnotationSpan) (kk : String) (v : Int)
    (h : clearWrite markers a b tier vid sp = some (kk, v)) :
    (kk = sp.startMarkerId ∨ kk = sp.endMarkerId) ∧
      sp.tierId = tier ∧ sp.videoId = vid := by
  unfold clearWrite at h
  by_cases hguard : (sp.tierId != tier || sp.videoId != vid) = true
  · rw [if_pos hguard] at h; cases h
  · rw [if_neg hguard] at h
    have hguard' : sp.tierId = tier ∧ sp.videoId = vid := by
      rcases Bool.or_eq_false_iff.mp (Bool.eq_false_iff.mpr hguard) with
        ⟨h1, h2⟩
      exact ⟨by simpa using h1, by simpa using h2⟩
    refine ⟨?_, hguard'⟩
    cases hfs : findMarker markers sp.startMarkerId with
    | none => rw [hfs] at h; cases h
    | some sM =>
      cases hfe : findMarker markers sp.endMarkerId with
      | none => rw [hfs, hfe] at h; cases h
      | some eM =>
        rw [hfs, hfe] at h
        dsimp only at h
        by_cases hskip : min sM.time eM.time ≥ b ∨ max sM.time eM.time ≤ a
        · rw [if_pos hskip] at h; cases h
        · rw [if_neg hskip] at h
          by_cases hcont : min sM.time eM.time ≥ a ∧ max sM.time eM.time ≤ b
          · rw [if_pos hcont] at h; cases h
          · rw [if_neg hcont] at h
            by_cases h3 : min sM.time eM.time < a ∧ max sM.time eM.time > b
            · rw [if_pos h3] at h
              by_cases ho : sM.time ≤ eM.time
              · rw [if_pos ho] at h
                exact Or.inr (congrArg Prod.fst (Option.some.inj h)).symm
              · rw [if_neg ho] at h
                exact Or.inl (congrArg Prod.fst (Option.some.inj h)).symm
            · rw [if_neg h3] at h
              by_cases h4 : min sM.time eM.time < a
              · rw [if_pos h4] at h
                by_cases ho : sM.time ≤ eM.time
                · rw [if_pos ho] at h
                  exact Or.inr (congrArg Prod.fst (Option.some.inj h)).symm
                · rw [if_neg ho] at h
                  exact Or.inl (congrArg Prod.fst (Option.some.inj h)).symm
              · rw [if_neg h4] at h
                by_cases ho : sM.time ≤ eM.time
                · rw [if_pos ho] at h
                  exact Or.inl (congrArg Prod.fst (Option.some.inj h)).symm
                · rw [if_neg ho] at h
                  exact Or.inr (congrArg Prod.fst (Option.some.inj h)).symm

/-- If no span in the list records a trim of marker `x`, the loop leaves
`x`'s time untouched. -/
theorem lastWrite_none_of (markers : List Marker) (a b : Int)
    (tier vid : String) (spans : List AnnotationSpan) (x : String)
    (h : ∀ sp ∈ spans, ∀ kk v,
      clearWrite markers a b tier vid sp = some (kk, v) → kk ≠ x) :
    lastWrite markers a b tier vid spans x = none := by
  induction spans with
  | nil => rfl
  | cons sp rest ih =>
    rw [lastWrite]
    rw [ih (fun sp' hsp' => h sp' (List.mem_cons_of_mem _ hsp'))]
    cases hcw : clearWrite markers a b tier vid sp with
    | none => rfl
    | some kv =>
      rcases kv with ⟨kk, v⟩
      dsimp only
      rw [if_neg (by simp [h sp (List.mem_cons_self _ _) kk v hcw])]

/-- A surviving trim of marker `x` comes from some span of the list. -/
theorem lastWrite_some_exists (markers : List Marker) (a b : Int)
    (tier vid : String) (spans : List AnnotationSpan) (x : String) (v : Int)
    (h : lastWrite markers a b tier vid spans x = some v) :
    ∃ sp ∈ spans, clearWrite markers a b tier vid sp = some (x, v) := by
  induction spans with
  | nil => cases h
  | cons sp rest ih =>
    rw [lastWrite] at h
    cases hlw : lastWrite markers a b tier vid rest x with
    | some v0 =>
      rw [hlw] at h
      obtain ⟨sp', hsp', hcw'⟩ := ih (hlw.trans (by simpa using h))
      exact ⟨sp', List.mem_cons_of_mem _ hsp', hcw'⟩
    | none =>
      rw [hlw] at h
      cases hcw : clearWrite markers a b tier vid sp with
      | none => rw [hcw] at h; cases h
      | some kv =>
        rcases kv with ⟨kk, v0⟩
        rw [hcw] at h
        dsimp only at h
        by_cases hk : (kk == x) = true
        · rw [if_pos hk] at h
          refine ⟨sp, List.mem_cons_self _ _, ?_⟩
          rw [hcw]
          have : kk = x := by simpa using hk
          rw [this, Option.some.inj h]
        · rw [if_neg hk] at h; cases h

/-- When every recorded trim of marker `x` carries the same value, the
loop's final trim of `x` is that value. -/
theorem lastWrite_some_of_unique (markers : List Marker) (a b : Int)
    (tier vid : String) (spans : List AnnotationSpan) (sp : AnnotationSpan)
    (x : String) (t : Int) (hsp : sp ∈ spans)
    (hw : clearWrite markers a b tier vid sp = some (x, t))
    (huniq : ∀ sp' ∈ spans, ∀ kk v,
      clearWrite markers a b tier vid sp' = some (kk, v) → kk = x → v = t) :
    lastWrite markers a b tier vid spans x = some t := by
  induction spans with
  | nil => cases hsp
  | cons sp0 rest ih =>
    rw [lastWrite]
    cases hlw : lastWrite markers a b tier vid rest x with
    | some v =>
      obtain ⟨sp', hsp', hcw'⟩ := lastWrite_some_exists _ _ _ _ _ _ _ _ hlw
      rw [huniq sp' (List.mem_cons_of_mem _ hsp') x v hcw' rfl]
    | none =>
      rcases List.mem_cons.mp hsp with rfl | hmem
      · rw [hw]
        dsimp only
        rw [if_pos (by simp)]
      · have := ih hmem
          (fun sp' hsp' => huniq sp' (List.mem_cons_of_mem _ hsp'))
        rw [hlw] at this
        cases this

/-- Starting from the empty accumulator, the final `markerTimeUpdates`
binding of a marker is exactly the loop's last trim of it. -/
theorem clearAcc_lookup (s : AnnotationState) (a b : Int)
    (tier vid : String) (x : String) :
    mapLookup ((s.spans.foldl (clearStep s.markers a b tier vid)
        {}).markerTimeUpdates) x =
      lastWrite s.markers a b tier vid s.spans x := by
  rw [foldl_clearStep_lookup]
  cases lastWrite s.markers a b tier vid s.spans x <;> rfl

/-- Starting from the empty accumulator, the removed span ids are exactly
the ids of the fully contained spans. -/
theorem clearAcc_removeSpan_mem (s : AnnotationState) (a b : Int)
    (tier vid : String) (x : String) :
    x ∈ (s.spans.foldl (clearStep s.markers a b tier vid)
        {}).removeSpanIds ↔
      ∃ sp ∈ s.spans, clearRemoves s.markers a b tier vid sp = true ∧
        sp.id = x := by
  rw [foldl_clearStep_removeSpan_mem]
  constructor
  · rintro (h | h)
    · cases h
    · exact h
  · exact Or.inr

/-- Starting from the empty accumulator, the removed marker ids are exactly
the anchor ids of the fully contained spans. -/
theorem clearAcc_removeMarker_mem (s : AnnotationState) (a b : Int)
    (tier vid : String) (x : String) :
    x ∈ (s.spans.foldl (clearStep s.markers a b tier vid)
        {}).removeMarkerIds ↔
      ∃ sp ∈ s.spans, clearRemoves s.markers a b tier vid sp = true ∧
        (x = sp.startMarkerId ∨ x = sp.endMarkerId) := by
  rw [foldl_clearStep_removeMarker_mem]
  constructor
  · rintro (h | h)
    · cases h
    · exact h
  · exact Or.inr

/-- Marker lookup in the committed state of `clearOverlappingSpans`:
removed markers are gone and everything else keeps its identity, with the
loop's last trim applied to its time. -/
theorem clear_findMarker (s : AnnotationState) (a b : Int)
    (tier vid : String) (x : String) :
    findMarker ((s.markers.filter (fun m =>
        !(((s.spans.foldl (clearStep s.markers a b tier vid)
          {}).removeMarkerIds).contains m.id))).map (fun m =>
      match mapLookup ((s.spans.foldl (clearStep s.markers a b tier vid)
          {}).markerTimeUpdates) m.id with
      | some t => { m with time := t }
      | none => m)) x =
      (if ((s.spans.foldl (clearStep s.markers a b tier vid)
            {}).removeMarkerIds).contains x = true then none
       else (findMarker s.markers x).map (fun m =>
        match lastWrite s.markers a b tier vid s.spans x with
        | some t => { m with time := t }
        | none => m)) := by
  rw [findMarker_map_of_id _ _ _ (fun m => by
    cases mapLookup ((s.spans.foldl (clearStep s.markers a b tier vid)
        {}).markerTimeUpdates) m.id <;> rfl)]
  rw [findMarker_removed_filter]
  by_cases hc : ((s.spans.foldl (clearStep s.markers a b tier vid)
      {}).removeMarkerIds).contains x = true
  · rw [if_pos hc, if_pos hc]
    rfl
  · rw [if_neg hc, if_neg hc]
    cases hfm : findMarker s.markers x with
    | none => rfl
    | some m0 =>
      have hid : m0.id = x := findMarker_some_id _ _ _ hfm
      simp only [Option.map_some']
      rw [hid, clearAcc_lookup]

theorem intervalsHit_false_of (c d a b : Int) (h : b ≤ c ∨ d ≤ a) :
    intervalsHit (some (c, d)) (some (a, b)) = false := by
  show (decide (c < b) && decide (a < d)) = false
  rcases h with h | h
  · rw [decide_eq_false (by omega : ¬(c < b))]
    rfl
  · rw [decide_eq_false (by omega : ¬(a < d))]
    exact Bool.and_false _

/-- When target-tier spans do not share anchors, a span recording a trim of
one of `sp`'s anchors must be `sp` itself. -/
theorem clear_unique_writer (s : AnnotationState) (a b : Int)
    (tier vid : String)
    (hdisj : ∀ sp1 ∈ s.spans, ∀ sp2 ∈ s.spans, sp1.tierId = tier →
      sp1.videoId = vid → sp2.tierId = tier → sp2.videoId = vid →
      (sp1.startMarkerId = sp2.startMarkerId ∨
       sp1.startMarkerId = sp2.endMarkerId ∨
       sp1.endMarkerId = sp2.startMarkerId ∨
       sp1.endMarkerId = sp2.endMarkerId) → sp1 = sp2)
    (sp : AnnotationSpan) (hsp : sp ∈ s.spans) (htier : sp.tierId = tier)
    (hvid : sp.videoId = vid)
    (sp' : AnnotationSpan) (hsp' : sp' ∈ s.spans) (kk : String) (v : Int)
    (hcw' : clearWrite s.markers a b tier vid sp' = some (kk, v))
    (hx : kk = sp.startMarkerId ∨ kk = sp.endMarkerId) : sp' = sp := by
  obtain ⟨hk', ht', hv'⟩ := clearWrite_facts _ _ _ _ _ _ _ _ hcw'
  apply hdisj sp' hsp' sp hsp ht' hv' htier hvid
  rcases hk' with h | h <;> rcases hx with h2 | h2
  · exact Or.inl (h.symm.trans h2)
  · exact Or.inr (Or.inl (h.symm.trans h2))
  · exact Or.inr (Or.inr (Or.inl (h.symm.trans h2)))
  · exact Or.inr (Or.inr (Or.inr (h.symm.trans h2)))

/-- The heart of the range-clearing guarantee: for a span on the target
tier and video with distinct, unshared anchors that is not deleted by
`clearOverlappingSpans(a, b, ...)`, applying the loop's final marker trims
to its anchor times yields an effective interval that misses `[a, b)`. -/
theorem clear_final_interval (s : AnnotationState) (a b : Int)
    (tier vid : String) (sp : AnnotationSpan)
    (hsp : sp ∈ s.spans) (htier : sp.tierId = tier) (hvid : sp.videoId = vid)
    (hanch : sp.startMarkerId ≠ sp.endMarkerId)
    (hdisj : ∀ sp1 ∈ s.spans, ∀ sp2 ∈ s.spans, sp1.tierId = tier →
      sp1.videoId = vid → sp2.tierId = tier → sp2.videoId = vid →
      (sp1.startMarkerId = sp2.startMarkerId ∨
       sp1.startMarkerId = sp2.endMarkerId ∨
       sp1.endMarkerId = sp2.startMarkerId ∨
       sp1.endMarkerId = sp2.endMarkerId) → sp1 = sp2)
    (sM eM : Marker)
    (hsM : findMarker s.markers sp.startMarkerId = some sM)
    (hsE : findMarker s.markers sp.endMarkerId = some eM)
    (hnorem : clearRemoves s.markers a b tier vid sp = false) :
    intervalsHit (some (
      min (match lastWrite s.markers a b tier vid s.spans sp.startMarkerId
           with
           | some t => t
           | none => sM.time)
          (match lastWrite s.markers a b tier vid s.spans sp.endMarkerId with
           | some t => t
           | none => eM.time),
      max (match lastWrite s.markers a b tier vid s.spans sp.startMarkerId
           with
           | some t => t
           | none => sM.time)
          (match lastWrite s.markers a b tier vid s.spans sp.endMarkerId with
           | some t => t
           | none => eM.time))) (some (a, b)) = false := by
  have hg : ¬((sp.tierId != tier || sp.videoId != vid) = true) := by
    simp [htier, hvid]
  by_cases hskip : min sM.time eM.time ≥ b ∨ max sM.time eM.time ≤ a
  · have hw : clearWrite s.markers a b tier vid sp = none := by
      unfold clearWrite
      rw [if_neg hg, hsM, hsE]
      dsimp only
      rw [if_pos hskip]
    have hlwS : lastWrite s.markers a b tier vid s.spans sp.startMarkerId =
        none := by
      apply lastWrite_none_of
      intro sp' hsp' kk v hcw' heq
      have := clear_unique_writer s a b tier vid hdisj sp hsp htier hvid
        sp' hsp' kk v hcw' (Or.inl heq)
      rw [this, hw] at hcw'
      cases hcw'
    have hlwE : lastWrite s.markers a b tier vid s.spans sp.endMarkerId =
        none := by
      apply lastWrite_none_of
      intro sp' hsp' kk v hcw' heq
      have := clear_unique_writer s a b tier vid hdisj sp hsp htier hvid
        sp' hsp' kk v hcw' (Or.inr heq)
      rw [this, hw] at hcw'
      cases hcw'
    rw [hlwS, hlwE]
    dsimp only
    apply intervalsHit_false_of
    omega
  · have hcont : ¬(min sM.time eM.time ≥ a ∧ max sM.time eM.time ≤ b) := by
      intro hcont
      have hrem : clearRemoves s.markers a b tier vid sp = true := by
        unfold clearRemoves
        rw [if_neg hg, hsM, hsE]
        dsimp only
        rw [if_neg hskip, if_pos hcont]
      rw [hrem] at hnorem
      cases hnorem
    by_cases h4 : min sM.time eM.time < a
    · have hw : clearWrite s.markers a b tier vid sp =
          some (if sM.time ≤ eM.time then sp.endMarkerId
            else sp.startMarkerId, a) := by
        unfold clearWrite
        rw [if_neg hg, hsM, hsE]
        dsimp only
        rw [if_neg hskip, if_neg hcont]
        by_cases h3 : min sM.time eM.time < a ∧ max sM.time eM.time > b
        · rw [if_pos h3]
        · rw [if_neg h3, if_pos h4]
      have huniq : ∀ sp' ∈ s.spans, ∀ kk v,
          clearWrite s.markers a b tier vid sp' = some (kk, v) →
          kk = (if sM.time ≤ eM.time then sp.endMarkerId
            else sp.startMarkerId) → v = a := by
        intro sp' hsp' kk v hcw' heq
        have hxanchor : kk = sp.startMarkerId ∨ kk = sp.endMarkerId := by
          by_cases ho : sM.time ≤ eM.time
          · rw [if_pos ho] at heq
            exact Or.inr heq
          · rw [if_neg ho] at heq
            exact Or.inl heq
        have heqsp := clear_unique_writer s a b tier vid hdisj sp hsp htier
          hvid sp' hsp' kk v hcw' hxanchor
        rw [heqsp, hw] at hcw'
        exact (congrArg Prod.snd (Option.some.inj hcw')).symm
      by_cases ho : sM.time ≤ eM.time
      · rw [if_pos ho] at hw huniq
        have hlwE : lastWrite s.markers a b tier vid s.spans
            sp.endMarkerId = some a :=
          lastWrite_some_of_unique _ _ _ _ _ _ sp _ _ hsp hw huniq
        have hlwS : lastWrite s.markers a b tier vid s.spans
            sp.startMarkerId = none := by
          apply lastWrite_none_of
          intro sp' hsp' kk v hcw' heq
          have heqsp := clear_unique_writer s a b tier vid hdisj sp hsp
            htier hvid sp' hsp' kk v hcw' (Or.inl heq)
          rw [heqsp, hw] at hcw'
          have hfst : kk = sp.endMarkerId :=
            (congrArg Prod.fst (Option.some.inj hcw')).symm
          exact hanch (heq.symm.trans hfst)
        rw [hlwS, hlwE]
        dsimp only
        apply intervalsHit_false_of
        omega
      · rw [if_neg ho] at hw huniq
        have hlwS : lastWrite s.markers a b tier vid s.spans
            sp.startMarkerId = some a :=
          lastWrite_some_of_unique _ _ _ _ _ _ sp _ _ hsp hw huniq
        have hlwE : lastWrite s.markers a b tier vid s.spans
            sp.endMarkerId = none := by
          apply lastWrite_none_of
          intro sp' hsp' kk v hcw' heq
          have heqsp := clear_unique_writer s a b tier vid hdisj sp hsp
            htier hvid sp' hsp' kk v hcw' (Or.inr heq)
          rw [heqsp, hw] at hcw'
          have hfst : kk = sp.startMarkerId :=
            (congrArg Prod.fst (Option.some.inj hcw')).symm
          exact hanch (hfst.symm.trans heq)
        rw [hlwS, hlwE]
        dsimp only
        apply intervalsHit_false_of
        omega
    · have hw : clearWrite s.markers a b tier vid sp =
          some (if sM.time ≤ eM.time then sp.startMarkerId
            else sp.endMarkerId, b) := by
        unfold clearWrite
        rw [if_neg hg, hsM, hsE]
        dsimp only
        rw [if_neg hskip, if_neg hcont,
          if_neg (by intro h3; exact h4 h3.1), if_neg h4]
      have huniq : ∀ sp' ∈ s.spans, ∀ kk v,
          clearWrite s.markers a b tier vid sp' = some (kk, v) →
          kk = (if sM.time ≤ eM.time then sp.startMarkerId
            else sp.endMarkerId) → v = b := by
        intro sp' hsp' kk v hcw' heq
        have hxanchor : kk = sp.startMarkerId ∨ kk = sp.endMarkerId := by
          by_cases ho : sM.time ≤ eM.time
          · rw [if_pos ho] at heq
            exact Or.inl heq
          · rw [if_neg ho] at heq
            exact Or.inr heq
        have heqsp := clear_unique_writer s a b tier vid hdisj sp hsp htier
          hvid sp' hsp' kk v hcw' hxanchor
        rw [heqsp, hw] at hcw'
        exact (congrArg Prod.snd (Option.some.inj hcw')).symm
      by_cases ho : sM.time ≤ eM.time
      · rw [if_pos ho] at hw huniq
        have hlwS : lastWrite s.markers a b tier vid s.spans
            sp.startMarkerId = some b :=
          lastWrite_some_of_unique _ _ _ _ _ _ sp _ _ hsp hw huniq
        have hlwE : lastWrite s.markers a b tier vid s.spans
            sp.endMarkerId = none := by
          apply lastWrite_none_of
          intro sp' hsp' kk v hcw' heq
          have heqsp := clear_unique_writer s a b tier vid hdisj sp hsp
            htier hvid sp' hsp' kk v hcw' (Or.inr heq)
          rw [heqsp, hw] at hcw'
          have hfst : kk = sp.startMarkerId :=
            (congrArg Prod.fst (Option.some.inj hcw')).symm
          exact hanch (hfst.symm.trans heq)
        rw [hlwS, hlwE]
        dsimp only
        apply intervalsHit_false_of
        omega
      · rw [if_neg ho] at hw huniq
        have hlwE : lastWrite s.markers a b tier vid s.spans
            sp.endMarkerId = some b :=
          lastWrite_some_of_unique _ _ _ _ _ _ sp _ _ hsp hw huniq
        have hlwS : lastWrite s.markers a b tier vid s.spans
            sp.startMarkerId = none := by
          apply lastWrite_none_of
          intro sp' hsp' kk v hcw' heq
          have heqsp := clear_unique_writer s a b tier vid hdisj sp hsp
            htier hvid sp' hsp' kk v hcw' (Or.inl heq)
          rw [heqsp, hw] at hcw'
          have hfst : kk = sp.endMarkerId :=
            (congrArg Prod.fst (Option.some.inj hcw')).symm
          exact hanch (heq.symm.trans hfst)
        rw [hlwS, hlwE]
        dsimp only
        apply intervalsHit_false_of
        omega

theorem findMarker_append (l1 l2 : List Marker) (x : String) :
    findMarker (l1 ++ l2) x =
      (match findMarker l1 x with
       | some m => some m
       | none => findMarker l2 x) := by
  unfold findMarker
  induction l1 with
  | nil => rfl
  | cons m l1 ih =>
    rw [List.cons_append, List.find?_cons, List.find?_cons]
    cases hm : (m.id == x)
    · exact ih
    · rfl

theorem effInterval_none_of_start (markers : List Marker)
    (sp : AnnotationSpan) (h : findMarker markers sp.startMarkerId = none) :
    effInterval markers sp = none := by
  unfold effInterval
  rw [h]

theorem effInterval_none_of_end (markers : List Marker)
    (sp : AnnotationSpan) (h : findMarker markers sp.endMarkerId = none) :
    effInterval markers sp = none := by
  unfold effInterval
  rw [h]
  cases findMarker markers sp.startMarkerId <;> rfl

/-- Spans of the cleared state come from the original state. -/
theorem clear_spans_sub (s : AnnotationState) (a b : Int)
    (tier vid : String) (sp : AnnotationSpan)
    (h : sp ∈ (clearOverlappingSpans a b tier vid s).spans) :
    sp ∈ s.spans := by
  unfold clearOverlappingSpans at h
  dsimp only at h
  by_cases hret : ((s.spans.foldl (clearStep s.markers a b tier vid)
      {}).removeSpanIds.isEmpty ∧
    (s.spans.foldl (clearStep s.markers a b tier vid)
      {}).markerTimeUpdates.isEmpty)
  · rw [if_pos hret] at h
    exact h
  · rw [if_neg hret] at h
    exact (List.mem_filter.mp h).1

/-- Marker ids of the cleared state come from the original state. -/
theorem clear_markers_sub (s : AnnotationState) (a b : Int)
    (tier vid : String) (m : Marker)
    (h : m ∈ (clearOverlappingSpans a b tier vid s).markers) :
    ∃ m0 ∈ s.markers, m.id = m0.id := by
  unfold clearOverlappingSpans at h
  dsimp only at h
  by_cases hret : ((s.spans.foldl (clearStep s.markers a b tier vid)
      {}).removeSpanIds.isEmpty ∧
    (s.spans.foldl (clearStep s.markers a b tier vid)
      {}).markerTimeUpdates.isEmpty)
  · rw [if_pos hret] at h
    exact ⟨m, h, rfl⟩
  · rw [if_neg hret] at h
    obtain ⟨m0, hm0, hmap⟩ := List.mem_map.mp h
    refine ⟨m0, (List.mem_filter.mp hm0).1, ?_⟩
    rw [← hmap]
    cases mapLookup ((s.spans.foldl (clearStep s.markers a b tier vid)
        {}).markerTimeUpdates) m0.id <;> rfl

/-- **C4 is false as stated.**  In `c4Store` the spans `A = [0, 1000)` and
`B = [1000, 2000)` share the boundary marker `m2`.  Clearing `[500, 1500)`
trims `A`'s end (`m2 -> 500`) and then `B`'s start (`m2 -> 1500`); the
second `Map.set` overwrites the first, so afterwards `A`'s effective
interval is `[0, 1500)`, which still intersects the cleared range
`[500, 1500)`. -/
theorem claim_C4_counterexample :
    (500 : Int) < 1500 ∧
    ∃ sp ∈ (clearOverlappingSpans 500 1500 "t" "v" c4Store).spans,
      sp.tierId = "t" ∧ sp.videoId = "v" ∧
      intervalsHit
        (effInterval (clearOverlappingSpans 500 1500 "t" "v" c4Store).markers
          sp) (some (500, 1500)) = true := by
  decide

/-- **C4 (amended).**  For `startMs < endMs`, provided every span on the
target tier and video has two distinct anchor markers and no two distinct
spans on the target tier and video share an anchor marker, then after
`clearOverlappingSpans(startMs, endMs, tierId, videoId)`: (i) no remaining
span on that tier and video whose anchor markers exist has an effective
interval intersecting `[startMs, endMs)`; (ii) every span fully contained
in the range is deleted together with its anchor markers; and (iii) a
subsequent `addSpan` anchored at two fresh markers placed at `startMs` and
`endMs` on that tier and video is never rejected for overlap. -/
theorem claim_C4_amended (a b : Int) (tier vid : String)
    (s : AnnotationState) (hab : a < b)
    (hanch : ∀ sp ∈ s.spans, sp.tierId = tier → sp.videoId = vid →
      sp.startMarkerId ≠ sp.endMarkerId)
    (hdisj : ∀ sp1 ∈ s.spans, ∀ sp2 ∈ s.spans, sp1.tierId = tier →
      sp1.videoId = vid → sp2.tierId = tier → sp2.videoId = vid →
      (sp1.startMarkerId = sp2.startMarkerId ∨
       sp1.startMarkerId = sp2.endMarkerId ∨
       sp1.endMarkerId = sp2.startMarkerId ∨
       sp1.endMarkerId = sp2.endMarkerId) → sp1 = sp2) :
    (∀ sp ∈ (clearOverlappingSpans a b tier vid s).spans,
      sp.tierId = tier → sp.videoId = vid →
        intervalsHit
          (effInterval (clearOverlappingSpans a b tier vid s).markers sp)
          (some (a, b)) = false) ∧
    (∀ sp ∈ s.spans, clearRemoves s.markers a b tier vid sp = true →
      (∀ sp' ∈ (clearOverlappingSpans a b tier vid s).spans,
        sp'.id ≠ sp.id) ∧
      (∀ m ∈ (clearOverlappingSpans a b tier vid s).markers,
        m.id ≠ sp.startMarkerId ∧ m.id ≠ sp.endMarkerId)) ∧
    (∀ (newId g : String) (mA mB : Marker),
      mA.time = a → mB.time = b → mA.id ≠ mB.id →
      (∀ m ∈ s.markers, m.id ≠ mA.id ∧ m.id ≠ mB.id) →
      (∀ sp ∈ s.spans, sp.startMarkerId ≠ mA.id ∧ sp.endMarkerId ≠ mA.id ∧
        sp.startMarkerId ≠ mB.id ∧ sp.endMarkerId ≠ mB.id) →
      addSpan newId
        { startMarkerId := mA.id, endMarkerId := mB.id, tierId := tier,
          videoId := vid, gloss := g }
        { clearOverlappingSpans a b tier vid s with
          markers := (clearOverlappingSpans a b tier vid s).markers ++
            [mA, mB] } =
      { clearOverlappingSpans a b tier vid s with
        markers := (clearOverlappingSpans a b tier vid s).markers ++
          [mA, mB],
        spans := (clearOverlappingSpans a b tier vid s).spans ++
          [{ id := newId, startMarkerId := mA.id, endMarkerId := mB.id,
             tierId := tier, videoId := vid, gloss := g }] }) := by
  have hmain : ∀ sp ∈ (clearOverlappingSpans a b tier vid s).spans,
      sp.tierId = tier → sp.videoId = vid →
        intervalsHit
          (effInterval (clearOverlappingSpans a b tier vid s).markers sp)
          (some (a, b)) = false := by
    intro sp hsp2 htier hvid
    have hsp : sp ∈ s.spans := clear_spans_sub s a b tier vid sp hsp2
    by_cases hret : ((s.spans.foldl (clearStep s.markers a b tier vid)
        {}).removeSpanIds.isEmpty ∧
      (s.spans.foldl (clearStep s.markers a b tier vid)
        {}).markerTimeUpdates.isEmpty)
    · have hstate : clearOverlappingSpans a b tier vid s = s := by
        unfold clearOverlappingSpans
        dsimp only
        rw [if_pos hret]
      rw [hstate]
      cases hsM : findMarker s.markers sp.startMarkerId with
      | none =>
        rw [effInterval_none_of_start s.markers sp hsM]
        exact intervalsHit_none_left _
      | some sM =>
        cases hsE : findMarker s.markers sp.endMarkerId with
        | none =>
          rw [effInterval_none_of_end s.markers sp hsE]
          exact intervalsHit_none_left _
        | some eM =>
          have hrs : (s.spans.foldl (clearStep s.markers a b tier vid)
              {}).removeSpanIds = [] := by
            have h1 := hret.1
            cases h' : (s.spans.foldl (clearStep s.markers a b tier vid)
                {}).removeSpanIds with
            | nil => rfl
            | cons y l =>
              rw [h'] at h1
              simp [List.isEmpty] at h1
          have hmtu : (s.spans.foldl (clearStep s.markers a b tier vid)
              {}).markerTimeUpdates = [] := by
            have h2 := hret.2
            cases h' : (s.spans.foldl (clearStep s.markers a b tier vid)
                {}).markerTimeUpdates with
            | nil => rfl
            | cons y l =>
              rw [h'] at h2
              simp [List.isEmpty] at h2
          have hnorem : clearRemoves s.markers a b tier vid sp = false := by
            by_cases h : clearRemoves s.markers a b tier vid sp = true
            · exfalso
              have hm : sp.id ∈ (s.spans.foldl
                  (clearStep s.markers a b tier vid) {}).removeSpanIds :=
                (clearAcc_removeSpan_mem s a b tier vid sp.id).mpr
                  ⟨sp, hsp, h, rfl⟩
              rw [hrs] at hm
              cases hm
            · exact Bool.eq_false_iff.mpr h
          have hlwS : lastWrite s.markers a b tier vid s.spans
              sp.startMarkerId = none := by
            have h := clearAcc_lookup s a b tier vid sp.startMarkerId
            rw [hmtu] at h
            rw [← h]
            rfl
          have hlwE : lastWrite s.markers a b tier vid s.spans
              sp.endMarkerId = none := by
            have h := clearAcc_lookup s a b tier vid sp.endMarkerId
            rw [hmtu] at h
            rw [← h]
            rfl
          have hk := clear_final_interval s a b tier vid sp hsp htier hvid
            (hanch sp hsp htier hvid) hdisj sM eM hsM hsE hnorem
          rw [hlwS, hlwE] at hk
          dsimp only at hk
          have heff : effInterval s.markers sp =
              some (min sM.time eM.time, max sM.time eM.time) := by
            unfold effInterval
            rw [hsM, hsE]
          rw [heff]
          exact hk
    · have hstate : clearOverlappingSpans a b tier vid s =
          { s with
            markers := (s.markers.filter (fun m =>
                !(((s.spans.foldl (clearStep s.markers a b tier vid)
                  {}).removeMarkerIds).contains m.id))).map (fun m =>
              match mapLookup ((s.spans.foldl
                  (clearStep s.markers a b tier vid)
                  {}).markerTimeUpdates) m.id with
              | some t => { m with time := t }
              | none => m),
            spans := s.spans.filter (fun sp =>
              !(((s.spans.foldl (clearStep s.markers a b tier vid)
                {}).removeSpanIds).contains sp.id)) } := by
        unfold clearOverlappingSpans
        dsimp only
        rw [if_neg hret]
      have hsp2' := hsp2
      rw [hstate] at hsp2'
      dsimp only at hsp2'
      have hnid : sp.id ∉ (s.spans.foldl (clearStep s.markers a b tier vid)
          {}).removeSpanIds := by
        have hcond := (List.mem_filter.mp hsp2').2
        simpa using hcond
      have hnorem : clearRemoves s.markers a b tier vid sp = false := by
        by_cases h : clearRemoves s.markers a b tier vid sp = true
        · exact absurd ((clearAcc_removeSpan_mem s a b tier vid sp.id).mpr
            ⟨sp, hsp, h, rfl⟩) hnid
        · exact Bool.eq_false_iff.mpr h
      rw [hstate]
      dsimp only
      by_cases hcS : ((s.spans.foldl (clearStep s.markers a b tier vid)
          {}).removeMarkerIds).contains sp.startMarkerId = true
      · rw [effInterval_none_of_start _ sp
          (by rw [clear_findMarker, if_pos hcS])]
        exact intervalsHit_none_left _
      · by_cases hcE : ((s.spans.foldl (clearStep s.markers a b tier vid)
            {}).removeMarkerIds).contains sp.endMarkerId = true
        · rw [effInterval_none_of_end _ sp
            (by rw [clear_findMarker, if_pos hcE])]
          exact intervalsHit_none_left _
        · cases hsM : findMarker s.markers sp.startMarkerId with
          | none =>
            rw [effInterval_none_of_start _ sp
              (by rw [clear_findMarker, if_neg hcS, hsM]; rfl)]
            exact intervalsHit_none_left _
          | some sM =>
            cases hsE : findMarker s.markers sp.endMarkerId with
            | none =>
              rw [effInterval_none_of_end _ sp
                (by rw [clear_findMarker, if_neg hcE, hsE]; rfl)]
              exact intervalsHit_none_left _
            | some eM =>
              have hk := clear_final_interval s a b tier vid sp hsp htier
                hvid (hanch sp hsp htier hvid) hdisj sM eM hsM hsE hnorem
              unfold effInterval
              rw [clear_findMarker, clear_findMarker, if_neg hcS,
                if_neg hcE, hsM, hsE]
              try dsimp only
              cases hlS : lastWrite s.markers a b tier vid s.spans
                  sp.startMarkerId with
              | none =>
                cases hlE : lastWrite s.markers a b tier vid s.spans
                    sp.endMarkerId with
                | none =>
                  rw [hlS, hlE] at hk
                  try dsimp only at hk
                  try dsimp only
                  exact hk
                | some tE =>
                  rw [hlS, hlE] at hk
                  try dsimp only at hk
                  try dsimp only
                  exact hk
              | some tS =>
                cases hlE : lastWrite s.markers a b tier vid s.spans
                    sp.endMarkerId with
                | none =>
                  rw [hlS, hlE] at hk
                  try dsimp only at hk
                  try dsimp only
                  exact hk
                | some tE =>
                  rw [hlS, hlE] at hk
                  try dsimp only at hk
                  try dsimp only
                  exact hk
  refine ⟨hmain, ?_, ?_⟩
  · intro sp hsp hrem
    have hmemS : sp.id ∈ (s.spans.foldl (clearStep s.markers a b tier vid)
        {}).removeSpanIds :=
      (clearAcc_removeSpan_mem s a b tier vid sp.id).mpr ⟨sp, hsp, hrem, rfl⟩
    have hmemA : sp.startMarkerId ∈ (s.spans.foldl
        (clearStep s.markers a b tier vid) {}).removeMarkerIds :=
      (clearAcc_removeMarker_mem s a b tier vid sp.startMarkerId).mpr
        ⟨sp, hsp, hrem, Or.inl rfl⟩
    have hmemB : sp.endMarkerId ∈ (s.spans.foldl
        (clearStep s.markers a b tier vid) {}).removeMarkerIds :=
      (clearAcc_removeMarker_mem s a b tier vid sp.endMarkerId).mpr
        ⟨sp, hsp, hrem, Or.inr rfl⟩
    have hret : ¬((s.spans.foldl (clearStep s.markers a b tier vid)
        {}).removeSpanIds.isEmpty ∧
      (s.spans.foldl (clearStep s.markers a b tier vid)
        {}).markerTimeUpdates.isEmpty) := by
      intro hret
      have h1 := hret.1
      cases h' : (s.spans.foldl (clearStep s.markers a b tier vid)
          {}).removeSpanIds with
      | nil =>
        rw [h'] at hmemS
        cases hmemS
      | cons y l =>
        rw [h'] at h1
        simp [List.isEmpty] at h1
    have hstate : clearOverlappingSpans a b tier vid s =
        { s with
          markers := (s.markers.filter (fun m =>
              !(((s.spans.foldl (clearStep s.markers a b tier vid)
                {}).removeMarkerIds).contains m.id))).map (fun m =>
            match mapLookup ((s.spans.foldl
                (clearStep s.markers a b tier vid)
                {}).markerTimeUpdates) m.id with
            | some t => { m with time := t }
            | none => m),
          spans := s.spans.filter (fun sp =>
            !(((s.spans.foldl (clearStep s.markers a b tier vid)
              {}).removeSpanIds).contains sp.id)) } := by
      unfold clearOverlappingSpans
      dsimp only
      rw [if_neg hret]
    constructor
    · intro sp' hsp2' heq
      rw [hstate] at hsp2'
      dsimp only at hsp2'
      have hnid : sp'.id ∉ (s.spans.foldl (clearStep s.markers a b tier vid)
          {}).removeSpanIds := by
        have hcond := (List.mem_filter.mp hsp2').2
        simpa using hcond
      rw [heq] at hnid
      exact hnid hmemS
    · intro m hm
      rw [hstate] at hm
      dsimp only at hm
      obtain ⟨m0, hm0, hmap⟩ := List.mem_map.mp hm
      have hnm : m0.id ∉ (s.spans.foldl (clearStep s.markers a b tier vid)
          {}).removeMarkerIds := by
        have hcond := (List.mem_filter.mp hm0).2
        simpa using hcond
      have hid : m.id = m0.id := by
        rw [← hmap]
        cases mapLookup ((s.spans.foldl (clearStep s.markers a b tier vid)
            {}).markerTimeUpdates) m0.id <;> rfl
      constructor
      · intro h
        rw [hid] at h
        rw [h] at hnm
        exact hnm hmemA
      · intro h
        rw [hid] at h
        rw [h] at hnm
        exact hnm hmemB
  · intro newId g mA mB hta htb hAB hfreshM hfreshS
    have hfresh2 : ∀ m ∈ (clearOverlappingSpans a b tier vid s).markers,
        m.id ≠ mA.id ∧ m.id ≠ mB.id := by
      intro m hm
      obtain ⟨m0, hm0, hid⟩ := clear_markers_sub s a b tier vid m hm
      rw [hid]
      exact hfreshM m0 hm0
    have hnone2 : ∀ x, x ≠ mA.id → x ≠ mB.id →
        findMarker ((clearOverlappingSpans a b tier vid s).markers ++
          [mA, mB]) x =
        findMarker (clearOverlappingSpans a b tier vid s).markers x := by
      intro x h1 h2
      rw [findMarker_append]
      cases hf : findMarker (clearOverlappingSpans a b tier vid s).markers
          x with
      | some m => rfl
      | none =>
        dsimp only
        unfold findMarker
        rw [List.find?_cons]
        cases hA : (mA.id == x) with
        | true =>
          have hAx : mA.id = x := by simpa using hA
          exact absurd hAx.symm h1
        | false =>
          rw [List.find?_cons]
          cases hB : (mB.id == x) with
          | true =>
            have hBx : mB.id = x := by simpa using hB
            exact absurd hBx.symm h2
          | false => rfl
    have hfmA : findMarker ((clearOverlappingSpans a b tier vid s).markers ++
        [mA, mB]) mA.id = some mA := by
      rw [findMarker_append]
      have hf : findMarker (clearOverlappingSpans a b tier vid s).markers
          mA.id = none := by
        unfold findMarker
        apply find?_eq_none_of_all
        intro m hm
        have h1 := (hfresh2 m hm).1
        cases hmx : (m.id == mA.id) with
        | true =>
          have hmx' : m.id = mA.id := by simpa using hmx
          exact absurd hmx' h1
        | false => rfl
      rw [hf]
      dsimp only
      unfold findMarker
      rw [List.find?_cons]
      rw [show (mA.id == mA.id) = true from by simp]
    have hfmB : findMarker ((clearOverlappingSpans a b tier vid s).markers ++
        [mA, mB]) mB.id = some mB := by
      rw [findMarker_append]
      have hf : findMarker (clearOverlappingSpans a b tier vid s).markers
          mB.id = none := by
        unfold findMarker
        apply find?_eq_none_of_all
        intro m hm
        have h2 := (hfresh2 m hm).2
        cases hmx : (m.id == mB.id) with
        | true =>
          have hmx' : m.id = mB.id := by simpa using hmx
          exact absurd hmx' h2
        | false => rfl
      rw [hf]
      dsimp only
      unfold findMarker
      rw [List.find?_cons]
      rw [show (mA.id == mB.id) = false from by simp [hAB]]
      rw [List.find?_cons]
      rw [show (mB.id == mB.id) = true from by simp]
    have hov : addSpanOverlapping
        { clearOverlappingSpans a b tier vid s with
          markers := (clearOverlappingSpans a b tier vid s).markers ++
            [mA, mB] }
        { startMarkerId := mA.id, endMarkerId := mB.id, tierId := tier,
          videoId := vid, gloss := g }
        (min mA.time mB.time) (max mA.time mB.time) = false := by
      unfold addSpanOverlapping
      rw [List.any_eq_false]
      intro sp' hsp3'
      rw [Bool.not_eq_true]
      have hsp2' : sp' ∈ (clearOverlappingSpans a b tier vid s).spans := by
        simpa using hsp3'
      have hsp' : sp' ∈ s.spans := clear_spans_sub s a b tier vid sp' hsp2'
      dsimp only
      by_cases hg : (sp'.tierId != tier || sp'.videoId != vid) = true
      · rw [if_pos hg]
      · rw [if_neg hg]
        have hg' := Bool.or_eq_false_iff.mp (Bool.eq_false_iff.mpr hg)
        have ht' : sp'.tierId = tier := by simpa using hg'.1
        have hv' : sp'.videoId = vid := by simpa using hg'.2
        have hfr := hfreshS sp' hsp'
        rw [hnone2 sp'.startMarkerId hfr.1 hfr.2.2.1,
          hnone2 sp'.endMarkerId hfr.2.1 hfr.2.2.2]
        cases hfS' : findMarker
            (clearOverlappingSpans a b tier vid s).markers
            sp'.startMarkerId with
        | none => rfl
        | some exS =>
          cases hfE' : findMarker
              (clearOverlappingSpans a b tier vid s).markers
              sp'.endMarkerId with
          | none => rfl
          | some exE =>
            dsimp only
            have hm := hmain sp' hsp2' ht' hv'
            have heff : effInterval
                (clearOverlappingSpans a b tier vid s).markers sp' =
                some (min exS.time exE.time, max exS.time exE.time) := by
              unfold effInterval
              rw [hfS', hfE']
            rw [heff] at hm
            have hm' : (decide (min exS.time exE.time < b) &&
                decide (a < max exS.time exE.time)) = false := hm
            rw [hta, htb, min_eq_left hab.le, max_eq_right hab.le]
            rw [Bool.and_comm] at hm'
            exact hm'
    unfold addSpan
    try dsimp only
    rw [hfmA, hfmB]
    try dsimp only
    rw [hov]
    try dsimp only
    rfl

/-- The amended C4 applied to `c4StoreW` and the range `[500, 1500)`,
with every hypothesis discharged by evaluation. -/
theorem claim_C4_witness :
    ((500 : Int) < 1500 ∧
    (∀ sp ∈ c4StoreW.spans, sp.tierId = "t" → sp.videoId = "v" →
      sp.startMarkerId ≠ sp.endMarkerId) ∧
    (∀ sp1 ∈ c4StoreW.spans, ∀ sp2 ∈ c4StoreW.spans, sp1.tierId = "t" →
      sp1.videoId = "v" → sp2.tierId = "t" → sp2.videoId = "v" →
      (sp1.startMarkerId = sp2.startMarkerId ∨
       sp1.startMarkerId = sp2.endMarkerId ∨
       sp1.endMarkerId = sp2.startMarkerId ∨
       sp1.endMarkerId = sp2.endMarkerId) → sp1 = sp2)) ∧
    ((∀ sp ∈ (clearOverlappingSpans 500 1500 "t" "v" c4StoreW).spans,
      sp.tierId = "t" → sp.videoId = "v" →
        intervalsHit
          (effInterval
            (clearOverlappingSpans 500 1500 "t" "v" c4StoreW).markers sp)
          (some (500, 1500)) = false) ∧
    (∀ sp ∈ c4StoreW.spans,
      clearRemoves c4StoreW.markers 500 1500 "t" "v" sp = true →
      (∀ sp' ∈ (clearOverlappingSpans 500 1500 "t" "v" c4StoreW).spans,
        sp'.id ≠ sp.id) ∧
      (∀ m ∈ (clearOverlappingSpans 500 1500 "t" "v" c4StoreW).markers,
        m.id ≠ sp.startMarkerId ∧ m.id ≠ sp.endMarkerId)) ∧
    (∀ (newId g : String) (mA mB : Marker),
      mA.time = 500 → mB.time = 1500 → mA.id ≠ mB.id →
      (∀ m ∈ c4StoreW.markers, m.id ≠ mA.id ∧ m.id ≠ mB.id) →
      (∀ sp ∈ c4StoreW.spans,
        sp.startMarkerId ≠ mA.id ∧ sp.endMarkerId ≠ mA.id ∧
        sp.startMarkerId ≠ mB.id ∧ sp.endMarkerId ≠ mB.id) →
      addSpan newId
        { startMarkerId := mA.id, endMarkerId := mB.id, tierId := "t",
          videoId := "v", gloss := g }
        { clearOverlappingSpans 500 1500 "t" "v" c4StoreW with
          markers := (clearOverlappingSpans 500 1500 "t" "v"
            c4StoreW).markers ++ [mA, mB] } =
      { clearOverlappingSpans 500 1500 "t" "v" c4StoreW with
        markers := (clearOverlappingSpans 500 1500 "t" "v"
          c4StoreW).markers ++ [mA, mB],
        spans := (clearOverlappingSpans 500 1500 "t" "v" c4StoreW).spans ++
          [{ id := newId, startMarkerId := mA.id, endMarkerId := mB.id,
             tierId := "t", videoId := "v", gloss := g }] })) :=
  ⟨⟨by decide, by decide, by decide⟩,
    claim_C4_amended 500 1500 "t" "v" c4StoreW (by decide) (by decide)
      (by decide)⟩

end SignAnnotator
